import Mathlib

set_option maxRecDepth 10000

/-!
Shallow embedding of the runtime reconciler of `comfyui_app_a100.py`.

The script's only runtime component is the function `ui()`: a linear,
mostly fault-tolerant sequence of filesystem and subprocess operations that
reconciles a persistent volume and then hands off to a child server process.
We embed it as a pure state-transformer over an explicit filesystem model:

  * filesystem paths are component lists (`FsPath`); the source's
    slash-joined strings such as `"/data/comfy/ComfyUI"` or the task
    subdirectory `"unet/FLUX"` map to their component decomposition
    `["data", "comfy", "ComfyUI"]`, `["unet", "FLUX"]`;
  * the filesystem (`FS`) is an association list of file paths to contents
    plus a list of directory paths; `os.path.exists` checks both;
  * outcomes of external effects (subprocess exit status, hub download
    success, the migration `shutil.copytree` succeeding, `subprocess.Popen`
    succeeding) are supplied by an `Oracle`;
  * every externally visible action is recorded in a trace of events
    (`Ev`): subprocess invocations with their working directory, hub
    fetches, the environment-variable export, and the final launch;
  * an uncaught Python exception is modelled by setting the `err` field of
    the run state `W`; once set, no further step executes (the process
    has died), matching exception propagation out of `ui()`.

Sequencing, branch conditions, caught/uncaught exception boundaries and
command strings follow the source line by line; comments in the step
definitions cite the corresponding source lines.
-/

namespace ComfyRec

/-- A filesystem path, as its list of components (the source joins
components with `/` via `os.path.join`). -/
abbrev FsPath := List String

/-- `leadsTo a b` is true iff `a` is an initial segment of `b`
(`b = a ++ r`), i.e. the directory `a` is `b` itself or an ancestor of it. -/
def leadsTo : FsPath → FsPath → Bool
  | [], _ => true
  | _ :: _, [] => false
  | a :: as, b :: bs => decide (a = b) && leadsTo as bs

/-- `under root p`: `p` is strictly inside the directory `root`. -/
def under (root p : FsPath) : Bool :=
  leadsTo root p && decide (p ≠ root)

/-- Relocation of one path by `shutil.copytree src dst` / `cp -r`:
replace the prefix `src` by `dst`. -/
def relocOne (src dst q : FsPath) : FsPath :=
  dst ++ q.drop src.length

/-- The filesystem: file entries (path, content) and directory entries.
Lookup is first-match, so earlier entries shadow later ones; every
destructive operation removes all entries at the affected paths. -/
structure FS where
  files : List (FsPath × String)
  dirs : List FsPath
deriving DecidableEq, Repr

/-- Content of the file at `p`, if a file entry for `p` exists. -/
def FS.read (fs : FS) (p : FsPath) : Option String :=
  (fs.files.find? (fun q => decide (q.1 = p))).map Prod.snd

/-- A file entry at `p` exists. -/
def FS.isFile (fs : FS) (p : FsPath) : Bool :=
  (fs.read p).isSome

/-- A directory entry at `p` exists. -/
def FS.isDir (fs : FS) (p : FsPath) : Bool :=
  fs.dirs.any (fun d => decide (d = p))

/-- `os.path.exists`: a file or a directory entry at `p` exists. -/
def FS.pathExists (fs : FS) (p : FsPath) : Bool :=
  fs.isFile p || fs.isDir p

/-- `open(p, "w").write c`: overwrite the file at `p` with content `c`. -/
def FS.write (fs : FS) (p : FsPath) (c : String) : FS :=
  { fs with files := (p, c) :: fs.files.filter (fun q => decide (q.1 ≠ p)) }

/-- Remove the file entry at `p` (the removal half of `shutil.move`). -/
def FS.removeFile (fs : FS) (p : FsPath) : FS :=
  { fs with files := fs.files.filter (fun q => decide (q.1 ≠ p)) }

/-- `os.makedirs(p, exist_ok=True)`: ensure a directory entry at `p`. -/
def FS.mkdir (fs : FS) (p : FsPath) : FS :=
  if fs.isDir p then fs else { fs with dirs := p :: fs.dirs }

/-- `shutil.move src dst` for a single file: if `src` is a file, its
content reappears at `dst` and `src` is gone. -/
def FS.move (fs : FS) (src dst : FsPath) : FS :=
  match fs.read src with
  | some c => (fs.removeFile src).write dst c
  | none => fs

/-- `shutil.rmtree p`: delete `p` and everything below it. -/
def FS.rmtree (fs : FS) (p : FsPath) : FS :=
  { files := fs.files.filter (fun q => !(leadsTo p q.1)),
    dirs := fs.dirs.filter (fun d => !(leadsTo p d)) }

/-- `shutil.copytree src dst (dirs_exist_ok := true)` and `cp -r src DST/`
(with `dst = DST/basename src`): every file and directory strictly under
`src` reappears under `dst` (shadowing what was there), `dst` itself is
created, and everything previously present elsewhere is kept. -/
def FS.copytree (fs : FS) (src dst : FsPath) : FS :=
  { files :=
      ((fs.files.filter (fun q => under src q.1)).map
        (fun q => (relocOne src dst q.1, q.2))) ++ fs.files,
    dirs :=
      dst :: ((fs.dirs.filter (fun d => under src d)).map (relocOne src dst))
        ++ fs.dirs }

/-! ### Constant paths of the script (source lines 7-15, 129-132, 143, 157, 201, 218) -/

/-- `DATA_ROOT = "/data/comfy"`. -/
def DATA_ROOT : FsPath := ["data", "comfy"]

/-- `DATA_BASE = os.path.join(DATA_ROOT, "ComfyUI")`. -/
def DATA_BASE : FsPath := DATA_ROOT ++ ["ComfyUI"]

/-- `CUSTOM_NODES_DIR = os.path.join(DATA_BASE, "custom_nodes")`. -/
def CUSTOM_NODES_DIR : FsPath := DATA_BASE ++ ["custom_nodes"]

/-- `MODELS_DIR = os.path.join(DATA_BASE, "models")`. -/
def MODELS_DIR : FsPath := DATA_BASE ++ ["models"]

/-- `TMP_DL = "/tmp/download"`. -/
def TMP_DL : FsPath := ["tmp", "download"]

/-- `DEFAULT_COMFY_DIR = "/root/comfy/ComfyUI"`. -/
def DEFAULT_COMFY_DIR : FsPath := ["root", "comfy", "ComfyUI"]

/-- The first-run marker checked on line 97: `DATA_BASE/main.py`. -/
def MAIN_PY : FsPath := DATA_BASE ++ ["main.py"]

/-- `manager_config_dir` (line 130): `DATA_BASE/user/__manager`. -/
def manager_config_dir : FsPath := DATA_BASE ++ ["user", "__manager"]

/-- `manager_config_path` (line 131): the managed `config.ini`. -/
def manager_config_path : FsPath := manager_config_dir ++ ["config.ini"]

/-- `legacy_dir` (line 132): `DATA_BASE/user/default/ComfyUI-Manager`. -/
def legacy_dir : FsPath := DATA_BASE ++ ["user", "default", "ComfyUI-Manager"]

/-- `backup_dir` (line 143): `manager_config_dir/.legacy-manager-backup`. -/
def backup_dir : FsPath := manager_config_dir ++ [".legacy-manager-backup"]

/-- `manager_dir` (line 157): `CUSTOM_NODES_DIR/ComfyUI-Manager`. -/
def manager_dir : FsPath := CUSTOM_NODES_DIR ++ ["ComfyUI-Manager"]

/-- `requirements_path` (line 201). -/
def requirements_path : FsPath := DATA_BASE ++ ["requirements.txt"]

/-- `manager_req_path` (line 218). -/
def manager_req_path : FsPath := DATA_BASE ++ ["manager_requirements.txt"]

/-- The fixed directive set written to `config.ini` (line 151). -/
def config_content : String :=
  "[default]\nnetwork_mode = private\nsecurity_level = weak\nlog_to_file = false\n"

/-- `DATA_BASE` rendered as the source's slash-joined string (the value
exported as `COMFY_DIR` on line 263). -/
def DATA_BASE_STR : String := "/data/comfy/ComfyUI"

/-- The bootstrap copy command of line 104,
`f"cp -r {DEFAULT_COMFY_DIR} {DATA_ROOT}/"`, rendered. -/
def cp_cmd : String := "cp -r /root/comfy/ComfyUI /data/comfy/"

/-- The launch argument vector of line 268. -/
def launch_cmd : List String :=
  ["comfy", "launch", "--", "--listen", "0.0.0.0", "--port", "8000",
   "--front-end-version", "Comfy-Org/ComfyUI_frontend@latest", "--enable-manager"]

/-! ### Model tasks (source lines 69-76) -/

/-- One declared model task: the tuple
`(subdir, filename, repo_id, subfolder)` of `model_tasks`; the slash-joined
`subdir` strings appear here as component lists. -/
structure ModelTask where
  subdir : FsPath
  filename : String
  repo_id : String
  subfolder : Option FsPath
deriving DecidableEq, Repr

/-- The static `model_tasks` table (lines 69-76). -/
def model_tasks : List ModelTask :=
  [⟨["unet", "FLUX"], "flux1-dev-Q8_0.gguf", "city96/FLUX.1-dev-gguf", none⟩,
   ⟨["clip", "FLUX"], "t5-v1_1-xxl-encoder-Q8_0.gguf", "city96/t5-v1_1-xxl-encoder-gguf", none⟩,
   ⟨["clip", "FLUX"], "clip_l.safetensors", "comfyanonymous/flux_text_encoders", none⟩,
   ⟨["checkpoints"], "flux1-dev-fp8-all-in-one.safetensors", "camenduru/FLUX.1-dev", none⟩,
   ⟨["loras"], "mjV6.safetensors", "strangerzonehf/Flux-Midjourney-Mix2-LoRA", none⟩,
   ⟨["vae", "FLUX"], "ae.safetensors", "ffxvs/vae-flux", none⟩]

/-- The destination path tested on line 238:
`os.path.join(MODELS_DIR, sub, fn)`. -/
def taskTarget (t : ModelTask) : FsPath :=
  MODELS_DIR ++ t.subdir ++ [t.filename]

/-- The scratch path `hf_hub_download(..., local_dir=TMP_DL)` returns:
`TMP_DL[/subfolder]/filename`. -/
def scratchPath (t : ModelTask) : FsPath :=
  TMP_DL ++ (match t.subfolder with | none => [] | some s => s) ++ [t.filename]

/-- The image-side counterpart of a task target under `DEFAULT_COMFY_DIR`
(the path the bootstrap `cp -r` would copy it from). -/
def imgModelPath (t : ModelTask) : FsPath :=
  DEFAULT_COMFY_DIR ++ ["models"] ++ t.subdir ++ [t.filename]

/-- The bytes the hub serves for `repo_id`/`filename` (the download client
is an external collaborator; its payload is opaque, so we model it by a
deterministic token of the coordinates). -/
def blob (repo fn : String) : String := "hub:" ++ repo ++ "/" ++ fn

/-- The extra shell commands of lines 78-80, rendered
(`{MODELS_DIR}` interpolated). -/
def extra_cmds : List String :=
  ["wget https://github.com/xinntao/Real-ESRGAN/releases/download/v0.2.2.4/RealESRGAN_x4plus_anime_6B.pth -P /data/comfy/ComfyUI/models/upscale_models"]

/-! ### External-effect oracle, events and run state -/

/-- Outcomes of the external world: `subOk cwd cmd` is the success of a
`subprocess.run` of `cmd` in working directory `cwd` (`returncode == 0`);
`dlOk repo fn` is whether `hf_hub_download repo fn` succeeds;
`migCopyOk` is whether the migration `shutil.copytree` of line 138
succeeds (it is the one filesystem call of the script that both can fail
in practice and is not inside any `try`); `popenOk` is whether
`subprocess.Popen` on line 270 succeeds. -/
structure Oracle where
  subOk : FsPath → String → Bool
  dlOk : String → String → Bool
  migCopyOk : Bool
  popenOk : Bool

/-- Externally visible events of a run. -/
inductive Ev where
  /-- a `subprocess.run` of `cmd` with working directory `cwd` -/
  | sub (cwd : FsPath) (cmd : String)
  /-- a network fetch `hf_hub_download(repo_id, filename)` -/
  | fetch (repo : String) (fn : String)
  /-- `os.environ[name] = val` -/
  | setenv (name : String) (val : String)
  /-- `subprocess.Popen(args, cwd=cwd, env=env)` -/
  | popen (cwd : FsPath) (args : List String) (env : List (String × String))
deriving DecidableEq, Repr

/-- Is the event a fetch? -/
def Ev.isFetch : Ev → Bool
  | .fetch _ _ => true
  | _ => false

/-- Is the event the process launch? -/
def Ev.isPopen : Ev → Bool
  | .popen _ _ _ => true
  | _ => false

/-- Run state: the filesystem, the process working directory
(`os.chdir`), the process environment (`os.environ`), the event trace,
and — once an uncaught exception escapes — the error that killed the run
(`err = some msg`; after that no later statement executes). -/
structure W where
  fs : FS
  cwd : FsPath
  env : List (String × String)
  tr : List Ev
  err : Option String
deriving DecidableEq, Repr

/-- The state at entry of `ui()`. -/
def W.init (fs : FS) (cwd : FsPath) (env : List (String × String)) : W :=
  ⟨fs, cwd, env, [], none⟩

/-- `os.environ[k] = v`. -/
def envSet (k v : String) (e : List (String × String)) : List (String × String) :=
  (k, v) :: e.filter (fun x => decide (x.1 ≠ k))

/-! ### The reconciler, step by step -/

/-- `hf_download` (lines 27-31): the already-fetched scratch file at
`TMP_DL[/subfolder]/filename` is moved to `MODELS_DIR/subdir/filename`,
creating the target directory first.  Called only after a successful
fetch; the enclosing `try` of lines 241-245 handles the failing case. -/
def hf_download (subdir : FsPath) (filename : String) (repo_id : String)
    (subfolder : Option FsPath) (fs : FS) : FS :=
  ((fs.write (TMP_DL ++ (match subfolder with | none => [] | some s => s) ++ [filename])
      (blob repo_id filename)).mkdir
    (MODELS_DIR ++ subdir)).move
    (TMP_DL ++ (match subfolder with | none => [] | some s => s) ++ [filename])
    (MODELS_DIR ++ subdir ++ [filename])

/-- Lines 96-107: first-run detection and bootstrap.  The `cp -r` runs
with `check=True` outside any `try`, so its failure kills the run. -/
def bootstrapStep (o : Oracle) (w : W) : W :=
  if w.err ≠ none then w else
  if w.fs.pathExists MAIN_PY then w
  else
    if w.fs.pathExists DEFAULT_COMFY_DIR then
      if o.subOk w.cwd cp_cmd then
        { w with fs := (w.fs.mkdir DATA_ROOT).copytree DEFAULT_COMFY_DIR DATA_BASE,
                 tr := w.tr ++ [Ev.sub w.cwd cp_cmd] }
      else
        { w with fs := w.fs.mkdir DATA_ROOT,
                 tr := w.tr ++ [Ev.sub w.cwd cp_cmd],
                 err := some "CalledProcessError: cp -r (check=True, line 104)" }
    else
      { w with fs := (w.fs.mkdir DATA_ROOT).mkdir DATA_BASE }

/-- Lines 119-123 and 162-165: `git config pull.ff only` then
`git pull --ff-only`, in directory `d`.  A failing `config` raises
`CalledProcessError`, which the enclosing `try` catches, so the `pull`
is then never attempted; a failing `pull` is likewise caught and has no
further effect. -/
def gitCfgPull (o : Oracle) (d : FsPath) (w : W) : W :=
  if o.subOk d "git config pull.ff only" then
    { w with tr := w.tr ++ [Ev.sub d "git config pull.ff only", Ev.sub d "git pull --ff-only"] }
  else
    { w with tr := w.tr ++ [Ev.sub d "git config pull.ff only"] }

/-- Lines 109-127: `os.chdir(DATA_BASE)`; detect detached HEAD via
`git symbolic-ref HEAD` (`returncode != 0` means detached), then
force-checkout `master` tracking `origin/master`; then configure
fast-forward-only pulls and pull.  A failing checkout raises inside the
`try`, so the config/pull pair is skipped; all failures are caught. -/
def backendUpdateStep (o : Oracle) (w : W) : W :=
  if w.err ≠ none then w else
  if o.subOk DATA_BASE "git symbolic-ref HEAD" then
    gitCfgPull o DATA_BASE
      { w with cwd := DATA_BASE, tr := w.tr ++ [Ev.sub DATA_BASE "git symbolic-ref HEAD"] }
  else
    if o.subOk DATA_BASE "git checkout -B master origin/master" then
      gitCfgPull o DATA_BASE
        { w with cwd := DATA_BASE,
                 tr := w.tr ++ [Ev.sub DATA_BASE "git symbolic-ref HEAD",
                   Ev.sub DATA_BASE "git checkout -B master origin/master"] }
    else
      { w with cwd := DATA_BASE,
               tr := w.tr ++ [Ev.sub DATA_BASE "git symbolic-ref HEAD",
                 Ev.sub DATA_BASE "git checkout -B master origin/master"] }

/-- Lines 134-146: migrate the legacy Manager directory (copy contents
into `manager_config_dir`, then delete it), then delete any legacy
backup under the new location.  None of this is inside a `try`: a
failing `shutil.copytree` (oracle `migCopyOk = false`) propagates and
kills the run. -/
def migrateStep (o : Oracle) (w : W) : W :=
  if w.err ≠ none then w else
  if w.fs.pathExists legacy_dir then
    if o.migCopyOk then
      if (((w.fs.mkdir manager_config_dir).copytree legacy_dir
            manager_config_dir).rmtree legacy_dir).pathExists backup_dir then
        { w with fs := ((((w.fs.mkdir manager_config_dir).copytree legacy_dir
            manager_config_dir).rmtree legacy_dir).rmtree backup_dir) }
      else
        { w with fs := (((w.fs.mkdir manager_config_dir).copytree legacy_dir
            manager_config_dir).rmtree legacy_dir) }
    else
      { w with fs := w.fs.mkdir manager_config_dir,
               err := some "shutil.copytree raised during migration (line 138, uncaught)" }
  else
    if w.fs.pathExists backup_dir then { w with fs := w.fs.rmtree backup_dir } else w

/-- Lines 148-154: unconditionally (re)create the config directory and
overwrite `config.ini` with the fixed directive set. -/
def configStep (_o : Oracle) (w : W) : W :=
  if w.err ≠ none then w else
  { w with fs := (w.fs.mkdir manager_config_dir).write manager_config_path config_content }

/-- Lines 156-177: if `manager_dir` exists, `os.chdir` into it, repeat
only the config/pull pair (no detached-HEAD handling), and `os.chdir`
back; otherwise attempt `comfy node install ComfyUI-Manager`.  All
failures are caught. -/
def managerStep (o : Oracle) (w : W) : W :=
  if w.err ≠ none then w else
  if w.fs.pathExists manager_dir then
    { gitCfgPull o manager_dir { w with cwd := manager_dir } with cwd := DATA_BASE }
  else
    { w with tr := w.tr ++ [Ev.sub w.cwd "comfy node install ComfyUI-Manager"] }

/-- Lines 179-187: best-effort `pip` self-upgrade (caught). -/
def pipUpgradeStep (_o : Oracle) (w : W) : W :=
  if w.err ≠ none then w else
  { w with tr := w.tr ++ [Ev.sub w.cwd "pip install --no-cache-dir --upgrade pip"] }

/-- Lines 189-197: best-effort `comfy-cli` upgrade (caught). -/
def comfyCliStep (_o : Oracle) (w : W) : W :=
  if w.err ≠ none then w else
  { w with tr := w.tr ++ [Ev.sub w.cwd "pip install --no-cache-dir --upgrade comfy-cli"] }

/-- Lines 199-214: install the front-end requirements file if present
(caught; absent file means nothing to do). -/
def frontendReqStep (_o : Oracle) (w : W) : W :=
  if w.err ≠ none then w else
  if w.fs.pathExists requirements_path then
    { w with tr := w.tr ++
        [Ev.sub w.cwd "/usr/local/bin/python -m pip install -r /data/comfy/ComfyUI/requirements.txt"] }
  else w

/-- Lines 216-229: install the Manager requirements file if present
(caught; absent file means nothing to do). -/
def managerReqStep (_o : Oracle) (w : W) : W :=
  if w.err ≠ none then w else
  if w.fs.pathExists manager_req_path then
    { w with tr := w.tr ++
        [Ev.sub w.cwd "pip install -r /data/comfy/ComfyUI/manager_requirements.txt"] }
  else w

/-- Lines 231-233: ensure the plugin, model and scratch directories. -/
def dirsStep (_o : Oracle) (w : W) : W :=
  if w.err ≠ none then w else
  { w with fs := ((w.fs.mkdir CUSTOM_NODES_DIR).mkdir MODELS_DIR).mkdir TMP_DL }

/-- Lines 237-247, one iteration: skip if the target exists; otherwise
attempt the fetch (the network request happens either way), and on
success place the file via `hf_download`.  A failing fetch is caught by
the `try` of lines 241-245 and only logged. -/
def runTask (o : Oracle) (w : W) (t : ModelTask) : W :=
  if w.err ≠ none then w else
  if w.fs.pathExists (taskTarget t) then w
  else
    if o.dlOk t.repo_id t.filename then
      { w with fs := hf_download t.subdir t.filename t.repo_id t.subfolder w.fs,
               tr := w.tr ++ [Ev.fetch t.repo_id t.filename] }
    else
      { w with tr := w.tr ++ [Ev.fetch t.repo_id t.filename] }

/-- The `for sub, fn, repo, subf in model_tasks` loop (lines 237-247). -/
def runTasks (o : Oracle) (ts : List ModelTask) (w : W) : W :=
  match ts with
  | [] => w
  | t :: rest => runTasks o rest (runTask o w t)

/-- Lines 235-247 for the declared task table. -/
def modelsStep (o : Oracle) (w : W) : W :=
  runTasks o model_tasks w

/-- Lines 249-260: run each extra command with `check=False` and
`cwd=DATA_BASE`; failures are tolerated. -/
def extrasStep (_o : Oracle) (w : W) : W :=
  if w.err ≠ none then w else
  { w with tr := w.tr ++ extra_cmds.map (fun c => Ev.sub DATA_BASE c) }

/-- Lines 262-272: export `COMFY_DIR`, then `subprocess.Popen` the server
with the fixed argument vector, `cwd=DATA_BASE` and `env=os.environ.copy()`.
`ui()` does not wait on the child: the event is recorded and the run
state is returned as-is.  A raising `Popen` is not caught and kills the
run. -/
def launchStep (o : Oracle) (w : W) : W :=
  if w.err ≠ none then w else
  if o.popenOk then
    { w with env := envSet "COMFY_DIR" DATA_BASE_STR w.env,
             tr := w.tr ++ [Ev.setenv "COMFY_DIR" DATA_BASE_STR,
               Ev.popen DATA_BASE launch_cmd (envSet "COMFY_DIR" DATA_BASE_STR w.env)] }
  else
    { w with env := envSet "COMFY_DIR" DATA_BASE_STR w.env,
             tr := w.tr ++ [Ev.setenv "COMFY_DIR" DATA_BASE_STR],
             err := some "subprocess.Popen raised (line 270, uncaught)" }

/-! ### The whole run, with named intermediate states -/

/-- State after the bootstrap check (lines 96-107). -/
def w_boot (o : Oracle) (fs : FS) (cwd : FsPath) (env : List (String × String)) : W :=
  bootstrapStep o (W.init fs cwd env)

/-- State after the backend source update (lines 109-127). -/
def w_backend (o : Oracle) (fs : FS) (cwd : FsPath) (env : List (String × String)) : W :=
  backendUpdateStep o (w_boot o fs cwd env)

/-- State after the config migration (lines 129-146). -/
def w_migrate (o : Oracle) (fs : FS) (cwd : FsPath) (env : List (String × String)) : W :=
  migrateStep o (w_backend o fs cwd env)

/-- State after the config rewrite (lines 148-154). -/
def w_config (o : Oracle) (fs : FS) (cwd : FsPath) (env : List (String × String)) : W :=
  configStep o (w_migrate o fs cwd env)

/-- State after the Manager update/install (lines 156-177). -/
def w_manager (o : Oracle) (fs : FS) (cwd : FsPath) (env : List (String × String)) : W :=
  managerStep o (w_config o fs cwd env)

/-- State after the pip upgrade (lines 179-187). -/
def w_pip (o : Oracle) (fs : FS) (cwd : FsPath) (env : List (String × String)) : W :=
  pipUpgradeStep o (w_manager o fs cwd env)

/-- State after the comfy-cli upgrade (lines 189-197). -/
def w_cli (o : Oracle) (fs : FS) (cwd : FsPath) (env : List (String × String)) : W :=
  comfyCliStep o (w_pip o fs cwd env)

/-- State after the front-end requirements install (lines 199-214). -/
def w_feReq (o : Oracle) (fs : FS) (cwd : FsPath) (env : List (String × String)) : W :=
  frontendReqStep o (w_cli o fs cwd env)

/-- State after the Manager requirements install (lines 216-229). -/
def w_mgrReq (o : Oracle) (fs : FS) (cwd : FsPath) (env : List (String × String)) : W :=
  managerReqStep o (w_feReq o fs cwd env)

/-- State after the directory guarantee (lines 231-233). -/
def w_dirs (o : Oracle) (fs : FS) (cwd : FsPath) (env : List (String × String)) : W :=
  dirsStep o (w_mgrReq o fs cwd env)

/-- State after the model-task loop (lines 235-247). -/
def w_models (o : Oracle) (fs : FS) (cwd : FsPath) (env : List (String × String)) : W :=
  modelsStep o (w_dirs o fs cwd env)

/-- State after the extra download commands (lines 249-260). -/
def w_extras (o : Oracle) (fs : FS) (cwd : FsPath) (env : List (String × String)) : W :=
  extrasStep o (w_models o fs cwd env)

/-- One full run of the reconciler `ui()`, from filesystem `fs`, initial
working directory `cwd` and initial process environment `env`, with
external outcomes given by `o`. -/
def ui (o : Oracle) (fs : FS) (cwd : FsPath) (env : List (String × String)) : W :=
  launchStep o (w_extras o fs cwd env)

/-! ### The git-command view of a trace (for the source-update pattern) -/

/-- Is `s` a git invocation? -/
def isGitCmd (s : String) : Bool :=
  List.isPrefixOf (String.toList "git ") s.data

/-- The sequence of git commands a trace runs in working directory `d`. -/
def gitEvts (tr : List Ev) (d : FsPath) : List String :=
  tr.filterMap fun e =>
    match e with
    | .sub c m => if c = d ∧ isGitCmd m = true then some m else none
    | _ => none

/-! ### Concrete inputs used by witnesses and counterexamples -/

/-- Oracle: every external operation succeeds. -/
def oAll : Oracle := ⟨fun _ _ => true, fun _ _ => true, true, true⟩

/-- Oracle: every hub download fails; everything else succeeds. -/
def oNoDl : Oracle := ⟨fun _ _ => true, fun _ _ => false, true, true⟩

/-- Oracle: the migration `shutil.copytree` fails; everything else
succeeds. -/
def oMigFail : Oracle := ⟨fun _ _ => true, fun _ _ => true, false, true⟩

/-- A volume with an installation already present and nothing else. -/
def fs0 : FS := ⟨[(MAIN_PY, "entry")], [DATA_BASE]⟩

/-- A volume with an installation and a populated legacy Manager
directory (a plain settings file and a notification file inside the
legacy backup subdirectory). -/
def fsLeg : FS :=
  ⟨[(MAIN_PY, "entry"),
    (legacy_dir ++ ["settings.json"], "old-settings"),
    (legacy_dir ++ [".legacy-manager-backup", "notify.txt"], "nag")],
   [DATA_BASE, legacy_dir, legacy_dir ++ [".legacy-manager-backup"]]⟩

/-- A volume with an installation, the Manager plugin directory, and one
model weight already in place. -/
def fsMgr : FS :=
  ⟨[(MAIN_PY, "entry"),
    (taskTarget ⟨["unet", "FLUX"], "flux1-dev-Q8_0.gguf", "city96/FLUX.1-dev-gguf", none⟩,
     "weights")],
   [DATA_BASE, manager_dir]⟩

/-- An empty volume next to a pre-baked image installation. -/
def fsFresh : FS :=
  ⟨[(DEFAULT_COMFY_DIR ++ ["main.py"], "entry")], [DEFAULT_COMFY_DIR]⟩

/-! ### Path lemmas -/

theorem leadsTo_iff (a : FsPath) : ∀ b, leadsTo a b = true ↔ ∃ r, b = a ++ r := by
  induction a with
  | nil => intro b; simp [leadsTo]
  | cons x as ih =>
    intro b
    cases b with
    | nil => simp [leadsTo]
    | cons y bs =>
      simp only [leadsTo, Bool.and_eq_true, decide_eq_true_eq, ih, List.cons_append,
        List.cons.injEq]
      constructor
      · rintro ⟨rfl, r, rfl⟩; exact ⟨r, rfl, rfl⟩
      · rintro ⟨r, rfl, rfl⟩; exact ⟨rfl, r, rfl⟩

theorem leadsTo_append (a r : FsPath) : leadsTo a (a ++ r) = true :=
  (leadsTo_iff a _).mpr ⟨r, rfl⟩

theorem leadsTo_refl (a : FsPath) : leadsTo a a = true := by
  simpa using leadsTo_append a []

theorem append_ne_self (a : FsPath) {r : FsPath} (hr : r ≠ []) : a ++ r ≠ a := by
  intro h
  apply hr
  have h2 : a ++ r = a ++ [] := by rw [List.append_nil]; exact h
  exact List.append_cancel_left h2

theorem under_append (a : FsPath) {r : FsPath} (hr : r ≠ []) : under a (a ++ r) = true := by
  simp [under, leadsTo_append, append_ne_self a hr]

theorem under_iff (a p : FsPath) : under a p = true ↔ ∃ r, r ≠ [] ∧ p = a ++ r := by
  simp only [under, Bool.and_eq_true, leadsTo_iff, decide_eq_true_eq]
  constructor
  · rintro ⟨⟨r, rfl⟩, hne⟩
    exact ⟨r, fun h => hne (by simp [h]), rfl⟩
  · rintro ⟨r, hr, rfl⟩
    exact ⟨⟨r, rfl⟩, append_ne_self a hr⟩

theorem relocOne_append (src dst r : FsPath) : relocOne src dst (src ++ r) = dst ++ r := by
  simp [relocOne, List.drop_left]

theorem leadsTo_get : ∀ (p q : FsPath), leadsTo p q = true →
    ∀ (i : Nat) (x : String), p.get? i = some x → q.get? i = some x
  | [], _, _, _, _, hx => by cases hx
  | _ :: _, [], h, _, _, _ => by simp [leadsTo] at h
  | a :: as, b :: bs, h, i, x, hx => by
    have h2 := h
    simp only [leadsTo, Bool.and_eq_true, decide_eq_true_eq] at h2
    obtain ⟨rfl, h3⟩ := h2
    cases i with
    | zero => exact hx
    | succ n => exact leadsTo_get as bs h3 n x hx

theorem ne_of_idx {p q : FsPath} {i : Nat} {x y : String}
    (hx : p.get? i = some x) (hy : q.get? i = some y) (hxy : x ≠ y) : p ≠ q := by
  intro h
  rw [h, hy] at hx
  exact hxy (Option.some.inj hx).symm

theorem not_leadsTo_of_idx {p q : FsPath} {i : Nat} {x y : String}
    (hx : p.get? i = some x) (hy : q.get? i = some y) (hxy : x ≠ y) :
    leadsTo p q = false := by
  cases h : leadsTo p q
  · rfl
  · have h2 := leadsTo_get p q h i x hx
    rw [hy] at h2
    exact absurd (Option.some.inj h2).symm hxy

/-! ### Generic filter/find helpers -/

theorem find?_filter_keep {α : Type} (l : List α) (f keep : α → Bool)
    (h : ∀ x, f x = true → keep x = true) :
    (l.filter keep).find? f = l.find? f := by
  induction l with
  | nil => rfl
  | cons a l ih =>
    rw [List.filter_cons]
    by_cases hf : f a = true
    · rw [h a hf]
      simp [List.find?_cons, hf]
    · have hf2 : f a = false := by revert hf; cases f a <;> simp
      cases hk : keep a
      · simp [List.find?_cons, hf2, ih]
      · simp [List.find?_cons, hf2, ih]

theorem any_filter_keep {α : Type} (l : List α) (f keep : α → Bool)
    (h : ∀ x, f x = true → keep x = true) :
    (l.filter keep).any f = l.any f := by
  induction l with
  | nil => rfl
  | cons a l ih =>
    rw [List.filter_cons]
    by_cases hf : f a = true
    · rw [h a hf]
      simp [List.any_cons, hf]
    · have hf2 : f a = false := by revert hf; cases f a <;> simp
      cases hk : keep a
      · simp [List.any_cons, hf2, ih]
      · simp [List.any_cons, hf2, ih]

/-! ### Filesystem-operation lemmas -/

theorem read_write_self (fs : FS) (p : FsPath) (c : String) :
    (fs.write p c).read p = some c := by
  unfold FS.read FS.write
  rw [List.find?_cons_of_pos _ (by simp)]
  rfl

theorem read_write_ne (fs : FS) {p q : FsPath} (c : String) (h : q ≠ p) :
    (fs.write q c).read p = fs.read p := by
  unfold FS.read FS.write
  rw [List.find?_cons_of_neg _ (by simpa using h)]
  rw [find?_filter_keep]
  intro x hx
  simp only [decide_eq_true_eq] at hx
  simp [hx, Ne.symm h]

theorem isDir_write (fs : FS) (q p : FsPath) (c : String) :
    (fs.write q c).isDir p = fs.isDir p := rfl

theorem read_mkdir (fs : FS) (q p : FsPath) : (fs.mkdir q).read p = fs.read p := by
  unfold FS.mkdir
  split <;> rfl

theorem isFile_mkdir (fs : FS) (q p : FsPath) : (fs.mkdir q).isFile p = fs.isFile p := by
  unfold FS.isFile
  rw [read_mkdir]

theorem isDir_mkdir_ne (fs : FS) {q p : FsPath} (h : q ≠ p) :
    (fs.mkdir q).isDir p = fs.isDir p := by
  unfold FS.mkdir
  split
  · rfl
  · simp [FS.isDir, List.any_cons, h]

theorem isDir_mkdir_mono (fs : FS) (q : FsPath) {p : FsPath} (h : fs.isDir p = true) :
    (fs.mkdir q).isDir p = true := by
  unfold FS.mkdir
  split
  · exact h
  · simp [FS.isDir] at h ⊢
    exact Or.inr h

theorem pathExists_mkdir_ne (fs : FS) {q p : FsPath} (h : q ≠ p) :
    (fs.mkdir q).pathExists p = fs.pathExists p := by
  unfold FS.pathExists
  rw [isFile_mkdir, isDir_mkdir_ne fs h]

theorem pathExists_mkdir_mono (fs : FS) (q : FsPath) {p : FsPath}
    (h : fs.pathExists p = true) : (fs.mkdir q).pathExists p = true := by
  unfold FS.pathExists at h ⊢
  rw [isFile_mkdir]
  rcases Bool.or_eq_true_iff.mp h with h1 | h1
  · rw [h1]; rfl
  · rw [isDir_mkdir_mono fs q h1]
    simp

theorem pathExists_write_ne (fs : FS) {p q : FsPath} (c : String) (h : q ≠ p) :
    (fs.write q c).pathExists p = fs.pathExists p := by
  unfold FS.pathExists FS.isFile
  rw [read_write_ne fs c h, isDir_write]

theorem pathExists_write_mono (fs : FS) (q : FsPath) (c : String) {p : FsPath}
    (h : fs.pathExists p = true) : (fs.write q c).pathExists p = true := by
  by_cases hq : q = p
  · subst hq
    unfold FS.pathExists FS.isFile
    rw [read_write_self]
    rfl
  · rw [pathExists_write_ne fs c hq]
    exact h

theorem read_removeFile_ne (fs : FS) {q p : FsPath} (h : q ≠ p) :
    (fs.removeFile q).read p = fs.read p := by
  unfold FS.read FS.removeFile
  rw [find?_filter_keep]
  intro x hx
  simp only [decide_eq_true_eq] at hx
  simp [hx, Ne.symm h]

theorem isDir_removeFile (fs : FS) (q p : FsPath) :
    (fs.removeFile q).isDir p = fs.isDir p := rfl

theorem read_move_ne (fs : FS) {src dst p : FsPath} (hs : src ≠ p) (hd : dst ≠ p) :
    (fs.move src dst).read p = fs.read p := by
  unfold FS.move
  cases h : fs.read src
  · rfl
  · rw [read_write_ne _ _ hd, read_removeFile_ne _ hs]

theorem read_move_dst (fs : FS) {src : FsPath} (dst : FsPath) {c : String}
    (h : fs.read src = some c) : (fs.move src dst).read dst = some c := by
  unfold FS.move
  rw [h, read_write_self]

theorem isDir_move (fs : FS) (src dst p : FsPath) :
    (fs.move src dst).isDir p = fs.isDir p := by
  unfold FS.move
  cases fs.read src <;> rfl

theorem pathExists_move_ne (fs : FS) {src dst p : FsPath} (hs : src ≠ p) (hd : dst ≠ p) :
    (fs.move src dst).pathExists p = fs.pathExists p := by
  unfold FS.pathExists FS.isFile
  rw [read_move_ne fs hs hd, isDir_move]

theorem pathExists_move_dst (fs : FS) {src : FsPath} (dst : FsPath) {c : String}
    (h : fs.read src = some c) : (fs.move src dst).pathExists dst = true := by
  unfold FS.pathExists FS.isFile
  rw [read_move_dst fs dst h]
  rfl

theorem read_rmtree_of_not (fs : FS) {q p : FsPath} (h : leadsTo q p = false) :
    (fs.rmtree q).read p = fs.read p := by
  unfold FS.read FS.rmtree
  rw [find?_filter_keep]
  intro x hx
  simp only [decide_eq_true_eq] at hx
  simp [hx, h]

theorem read_rmtree_leads (fs : FS) {q p : FsPath} (h : leadsTo q p = true) :
    (fs.rmtree q).read p = none := by
  unfold FS.read FS.rmtree
  rw [List.find?_eq_none.mpr]
  · rfl
  · intro x hx
    rcases List.mem_filter.mp hx with ⟨_, hkeep⟩
    simp only [decide_eq_true_eq]
    intro hxp
    rw [hxp, h] at hkeep
    simp at hkeep

theorem isDir_rmtree_of_not (fs : FS) {q p : FsPath} (h : leadsTo q p = false) :
    (fs.rmtree q).isDir p = fs.isDir p := by
  unfold FS.isDir FS.rmtree
  rw [any_filter_keep]
  intro x hx
  simp only [decide_eq_true_eq] at hx
  simp [hx, h]

theorem isDir_rmtree_leads (fs : FS) {q p : FsPath} (h : leadsTo q p = true) :
    (fs.rmtree q).isDir p = false := by
  unfold FS.isDir FS.rmtree
  rw [List.any_eq_false]
  intro x hx
  rcases List.mem_filter.mp hx with ⟨_, hkeep⟩
  simp only [decide_eq_true_eq]
  intro hxp
  rw [hxp, h] at hkeep
  simp at hkeep

theorem pathExists_rmtree_of_not (fs : FS) {q p : FsPath} (h : leadsTo q p = false) :
    (fs.rmtree q).pathExists p = fs.pathExists p := by
  unfold FS.pathExists FS.isFile
  rw [read_rmtree_of_not fs h, isDir_rmtree_of_not fs h]

theorem pathExists_rmtree_leads (fs : FS) {q p : FsPath} (h : leadsTo q p = true) :
    (fs.rmtree q).pathExists p = false := by
  unfold FS.pathExists FS.isFile
  rw [read_rmtree_leads fs h, isDir_rmtree_leads fs h]
  rfl

theorem pathExists_rmtree_le (fs : FS) {q p : FsPath}
    (h : (fs.rmtree q).pathExists p = true) : fs.pathExists p = true := by
  by_cases hl : leadsTo q p = true
  · rw [pathExists_rmtree_leads fs hl] at h
    exact absurd h (by simp)
  · rw [pathExists_rmtree_of_not fs (by revert hl; cases leadsTo q p <;> simp)] at h
    exact h

theorem copytree_find? (files : List (FsPath × String)) (src dst r : FsPath) (hr : r ≠ []) :
    ((files.filter (fun q => under src q.1)).map
      (fun q => (relocOne src dst q.1, q.2))).find? (fun q => decide (q.1 = dst ++ r))
    = (files.find? (fun q => decide (q.1 = src ++ r))).map (fun q => (dst ++ r, q.2)) := by
  induction files with
  | nil => rfl
  | cons a l ih =>
    rw [List.filter_cons]
    cases hu : under src a.1
    · have hne : a.1 ≠ src ++ r := by
        intro h2
        rw [h2, under_append src hr] at hu
        cases hu
      rw [if_neg (by simp), List.find?_cons_of_neg _ (by simpa using hne)]
      exact ih
    · obtain ⟨s, hs, ha⟩ := (under_iff src a.1).mp hu
      rw [if_pos rfl, List.map_cons]
      by_cases hsr : s = r
      · subst hsr
        rw [List.find?_cons_of_pos _ (by simp [ha, relocOne_append]),
          List.find?_cons_of_pos _ (by simp [ha])]
        simp [ha, relocOne_append]
      · have h1 : relocOne src dst a.1 ≠ dst ++ r := by
          rw [ha, relocOne_append]
          intro h2
          exact hsr (List.append_cancel_left h2)
        have h2 : a.1 ≠ src ++ r := by
          rw [ha]
          intro h3
          exact hsr (List.append_cancel_left h3)
        rw [List.find?_cons_of_neg _ (by simpa using h1),
          List.find?_cons_of_neg _ (by simpa using h2)]
        exact ih

theorem read_copytree_out (fs : FS) {src dst p : FsPath} (h : under dst p = false) :
    (fs.copytree src dst).read p = fs.read p := by
  unfold FS.read FS.copytree
  have hnone : List.find? (fun q => decide (q.1 = p))
      ((fs.files.filter (fun q => under src q.1)).map
        (fun q => (relocOne src dst q.1, q.2))) = none := by
    rw [List.find?_eq_none]
    intro x hx
    rcases List.mem_map.mp hx with ⟨q, hq, rfl⟩
    rcases List.mem_filter.mp hq with ⟨_, hunder⟩
    obtain ⟨s, hs, hq1⟩ := (under_iff _ _).mp hunder
    simp only [decide_eq_true_eq]
    intro hp
    rw [hq1, relocOne_append] at hp
    rw [← hp, under_append dst hs] at h
    cases h
  rw [List.find?_append, hnone]
  rfl

theorem read_copytree_in (fs : FS) (src dst : FsPath) {r : FsPath} (hr : r ≠ []) :
    (fs.copytree src dst).read (dst ++ r) =
      ((fs.read (src ++ r)).or (fs.read (dst ++ r))) := by
  unfold FS.read FS.copytree
  rw [List.find?_append, copytree_find? fs.files src dst r hr]
  cases List.find? (fun q => decide (q.1 = src ++ r)) fs.files <;> rfl

theorem read_copytree_hit (fs : FS) (src dst : FsPath) {r : FsPath} {c : String} (hr : r ≠ [])
    (h : fs.read (src ++ r) = some c) : (fs.copytree src dst).read (dst ++ r) = some c := by
  rw [read_copytree_in fs src dst hr, h]
  rfl

theorem read_copytree_fall (fs : FS) (src dst : FsPath) {r : FsPath} (hr : r ≠ [])
    (h : fs.read (src ++ r) = none) :
    (fs.copytree src dst).read (dst ++ r) = fs.read (dst ++ r) := by
  rw [read_copytree_in fs src dst hr, h]
  rfl

theorem isFile_copytree_mono (fs : FS) (src dst : FsPath) {p : FsPath}
    (h : fs.isFile p = true) : (fs.copytree src dst).isFile p = true := by
  unfold FS.isFile FS.read at h ⊢
  unfold FS.copytree
  rw [List.find?_append]
  cases List.find? (fun q => decide (q.1 = p))
      ((fs.files.filter (fun q => under src q.1)).map
        (fun q => (relocOne src dst q.1, q.2)))
  · simpa using h
  · simp [Option.or]

theorem isDir_copytree_mono (fs : FS) (src dst : FsPath) {p : FsPath}
    (h : fs.isDir p = true) : (fs.copytree src dst).isDir p = true := by
  unfold FS.isDir at h ⊢
  unfold FS.copytree
  simp only [List.any_cons, List.any_append, Bool.or_eq_true] at h ⊢
  tauto

theorem pathExists_copytree_mono (fs : FS) (src dst : FsPath) {p : FsPath}
    (h : fs.pathExists p = true) : (fs.copytree src dst).pathExists p = true := by
  unfold FS.pathExists at h ⊢
  rcases Bool.or_eq_true_iff.mp h with h1 | h1
  · rw [isFile_copytree_mono fs src dst h1]
    rfl
  · rw [isDir_copytree_mono fs src dst h1]
    simp

/-! ### Trace helpers -/

theorem fetch_mem_extend (tr δ : List Ev) (h : ∀ e ∈ δ, e.isFetch = false) (r f : String) :
    (Ev.fetch r f ∈ tr ++ δ ↔ Ev.fetch r f ∈ tr) := by
  rw [List.mem_append]
  constructor
  · rintro (h1 | h1)
    · exact h1
    · have h2 := h _ h1
      simp [Ev.isFetch] at h2
  · exact Or.inl

theorem gitEvts_append (a b : List Ev) (d : FsPath) :
    gitEvts (a ++ b) d = gitEvts a d ++ gitEvts b d :=
  List.filterMap_append a b _

theorem gitEvts_sub (c : FsPath) (m : String) (d : FsPath) :
    gitEvts [Ev.sub c m] d = if c = d ∧ isGitCmd m = true then [m] else [] := by
  unfold gitEvts
  simp only [List.filterMap_cons]
  by_cases hc : c = d ∧ isGitCmd m = true
  · simp [hc]
  · simp [hc]

theorem gitEvts_cons (e : Ev) (es : List Ev) (d : FsPath) :
    gitEvts (e :: es) d = gitEvts [e] d ++ gitEvts es d := by
  rw [show e :: es = [e] ++ es from rfl, gitEvts_append]

theorem gitEvts_sub_nongit (c : FsPath) {m : String} (d : FsPath) (h : isGitCmd m = false) :
    gitEvts [Ev.sub c m] d = [] := by
  rw [gitEvts_sub]
  rw [if_neg]
  rintro ⟨_, h2⟩
  rw [h] at h2
  cases h2

theorem gitEvts_sub_ne {c : FsPath} (m : String) {d : FsPath} (h : c ≠ d) :
    gitEvts [Ev.sub c m] d = [] := by
  rw [gitEvts_sub, if_neg]
  rintro ⟨h1, _⟩
  exact h h1

/-! ### Step lemmas: gitCfgPull -/

theorem gitCfgPull_fs (o : Oracle) (d : FsPath) (w : W) : (gitCfgPull o d w).fs = w.fs := by
  unfold gitCfgPull
  split <;> rfl

theorem gitCfgPull_env (o : Oracle) (d : FsPath) (w : W) : (gitCfgPull o d w).env = w.env := by
  unfold gitCfgPull
  split <;> rfl

theorem gitCfgPull_cwd (o : Oracle) (d : FsPath) (w : W) : (gitCfgPull o d w).cwd = w.cwd := by
  unfold gitCfgPull
  split <;> rfl

theorem gitCfgPull_err (o : Oracle) (d : FsPath) (w : W) : (gitCfgPull o d w).err = w.err := by
  unfold gitCfgPull
  split <;> rfl

theorem gitCfgPull_fetch (o : Oracle) (d : FsPath) (w : W) (r f : String) :
    (Ev.fetch r f ∈ (gitCfgPull o d w).tr ↔ Ev.fetch r f ∈ w.tr) := by
  unfold gitCfgPull
  split <;> simp [List.mem_append]

theorem gitCfgPull_gitEvts_ne (o : Oracle) {d : FsPath} (w : W) {d2 : FsPath} (h : d ≠ d2) :
    gitEvts (gitCfgPull o d w).tr d2 = gitEvts w.tr d2 := by
  unfold gitCfgPull
  split
  · rw [gitEvts_append, gitEvts_cons, gitEvts_sub_ne _ h, gitEvts_sub_ne _ h]
    simp
  · rw [gitEvts_append, gitEvts_sub_ne _ h]
    simp

theorem gitCfgPull_gitEvts_self (o : Oracle) (d : FsPath) (w : W) :
    gitEvts (gitCfgPull o d w).tr d =
      gitEvts w.tr d ++ "git config pull.ff only" ::
        (if o.subOk d "git config pull.ff only" = true then ["git pull --ff-only"] else []) := by
  unfold gitCfgPull
  split
  · dsimp only
    rw [gitEvts_append, gitEvts_cons, gitEvts_sub, gitEvts_sub]
    rw [if_pos ⟨rfl, by decide⟩, if_pos ⟨rfl, by decide⟩]
    rfl
  · dsimp only
    rw [gitEvts_append, gitEvts_sub, if_pos ⟨rfl, by decide⟩]

/-! ### Per-step invariance lemmas: error, environment, filesystem, cwd -/

theorem bootstrapStep_err_peel (o : Oracle) (w : W) (h : (bootstrapStep o w).err = none) :
    w.err = none := by
  by_contra hw
  unfold bootstrapStep at h
  rw [if_pos hw] at h
  exact hw h

theorem bootstrapStep_env (o : Oracle) (w : W) : (bootstrapStep o w).env = w.env := by
  unfold bootstrapStep
  repeat' split
  all_goals rfl

theorem bootstrapStep_cwd (o : Oracle) (w : W) : (bootstrapStep o w).cwd = w.cwd := by
  unfold bootstrapStep
  repeat' split
  all_goals rfl

theorem backendUpdateStep_err (o : Oracle) (w : W) :
    (backendUpdateStep o w).err = w.err := by
  unfold backendUpdateStep
  repeat' split
  all_goals first | rfl | rw [gitCfgPull_err]

theorem backendUpdateStep_env (o : Oracle) (w : W) :
    (backendUpdateStep o w).env = w.env := by
  unfold backendUpdateStep
  repeat' split
  all_goals first | rfl | rw [gitCfgPull_env]

theorem backendUpdateStep_fs (o : Oracle) (w : W) :
    (backendUpdateStep o w).fs = w.fs := by
  unfold backendUpdateStep
  repeat' split
  all_goals first | rfl | rw [gitCfgPull_fs]

theorem backendUpdateStep_cwd (o : Oracle) (w : W) (h : w.err = none) :
    (backendUpdateStep o w).cwd = DATA_BASE := by
  unfold backendUpdateStep
  rw [if_neg (by simp [h])]
  repeat' split
  all_goals first | rfl | rw [gitCfgPull_cwd]

theorem migrateStep_err_peel (o : Oracle) (w : W) (h : (migrateStep o w).err = none) :
    w.err = none := by
  by_contra hw
  unfold migrateStep at h
  rw [if_pos hw] at h
  exact hw h

theorem migrateStep_err_fwd (o : Oracle) (w : W) (h : w.err = none)
    (hm : o.migCopyOk = true) : (migrateStep o w).err = none := by
  unfold migrateStep
  rw [if_neg (by simp [h]), hm]
  repeat' split
  all_goals first | exact h | rfl | simp_all

theorem migrateStep_migCopyOk (o : Oracle) (w : W) (h : (migrateStep o w).err = none)
    (hleg : w.fs.pathExists legacy_dir = true) : o.migCopyOk = true := by
  have hw := migrateStep_err_peel o w h
  by_contra hm
  unfold migrateStep at h
  rw [if_neg (by simp [hw]), if_pos hleg] at h
  rw [show o.migCopyOk = false from by revert hm; cases o.migCopyOk <;> simp] at h
  simp at h

theorem migrateStep_env (o : Oracle) (w : W) : (migrateStep o w).env = w.env := by
  unfold migrateStep
  repeat' split
  all_goals rfl

theorem migrateStep_cwd (o : Oracle) (w : W) : (migrateStep o w).cwd = w.cwd := by
  unfold migrateStep
  repeat' split
  all_goals rfl

theorem migrateStep_tr (o : Oracle) (w : W) : (migrateStep o w).tr = w.tr := by
  unfold migrateStep
  repeat' split
  all_goals rfl

theorem configStep_err (o : Oracle) (w : W) : (configStep o w).err = w.err := by
  unfold configStep
  split <;> rfl

theorem configStep_env (o : Oracle) (w : W) : (configStep o w).env = w.env := by
  unfold configStep
  split <;> rfl

theorem configStep_cwd (o : Oracle) (w : W) : (configStep o w).cwd = w.cwd := by
  unfold configStep
  split <;> rfl

theorem configStep_tr (o : Oracle) (w : W) : (configStep o w).tr = w.tr := by
  unfold configStep
  split <;> rfl

theorem managerStep_err (o : Oracle) (w : W) : (managerStep o w).err = w.err := by
  unfold managerStep
  repeat' split
  all_goals first | rfl | rw [gitCfgPull_err]

theorem managerStep_env (o : Oracle) (w : W) : (managerStep o w).env = w.env := by
  unfold managerStep
  repeat' split
  all_goals first | rfl | rw [gitCfgPull_env]

theorem managerStep_fs (o : Oracle) (w : W) : (managerStep o w).fs = w.fs := by
  unfold managerStep
  repeat' split
  all_goals first | rfl | rw [gitCfgPull_fs]

theorem managerStep_cwd (o : Oracle) (w : W) (h : w.cwd = DATA_BASE) :
    (managerStep o w).cwd = DATA_BASE := by
  unfold managerStep
  repeat' split
  all_goals first | exact h | rfl

theorem pipUpgradeStep_err (o : Oracle) (w : W) : (pipUpgradeStep o w).err = w.err := by
  unfold pipUpgradeStep
  split <;> rfl

theorem pipUpgradeStep_env (o : Oracle) (w : W) : (pipUpgradeStep o w).env = w.env := by
  unfold pipUpgradeStep
  split <;> rfl

theorem pipUpgradeStep_fs (o : Oracle) (w : W) : (pipUpgradeStep o w).fs = w.fs := by
  unfold pipUpgradeStep
  split <;> rfl

theorem pipUpgradeStep_cwd (o : Oracle) (w : W) : (pipUpgradeStep o w).cwd = w.cwd := by
  unfold pipUpgradeStep
  split <;> rfl

theorem comfyCliStep_err (o : Oracle) (w : W) : (comfyCliStep o w).err = w.err := by
  unfold comfyCliStep
  split <;> rfl

theorem comfyCliStep_env (o : Oracle) (w : W) : (comfyCliStep o w).env = w.env := by
  unfold comfyCliStep
  split <;> rfl

theorem comfyCliStep_fs (o : Oracle) (w : W) : (comfyCliStep o w).fs = w.fs := by
  unfold comfyCliStep
  split <;> rfl

theorem comfyCliStep_cwd (o : Oracle) (w : W) : (comfyCliStep o w).cwd = w.cwd := by
  unfold comfyCliStep
  split <;> rfl

theorem frontendReqStep_err (o : Oracle) (w : W) : (frontendReqStep o w).err = w.err := by
  unfold frontendReqStep
  repeat' split
  all_goals rfl

theorem frontendReqStep_env (o : Oracle) (w : W) : (frontendReqStep o w).env = w.env := by
  unfold frontendReqStep
  repeat' split
  all_goals rfl

theorem frontendReqStep_fs (o : Oracle) (w : W) : (frontendReqStep o w).fs = w.fs := by
  unfold frontendReqStep
  repeat' split
  all_goals rfl

theorem frontendReqStep_cwd (o : Oracle) (w : W) : (frontendReqStep o w).cwd = w.cwd := by
  unfold frontendReqStep
  repeat' split
  all_goals rfl

theorem managerReqStep_err (o : Oracle) (w : W) : (managerReqStep o w).err = w.err := by
  unfold managerReqStep
  repeat' split
  all_goals rfl

theorem managerReqStep_env (o : Oracle) (w : W) : (managerReqStep o w).env = w.env := by
  unfold managerReqStep
  repeat' split
  all_goals rfl

theorem managerReqStep_fs (o : Oracle) (w : W) : (managerReqStep o w).fs = w.fs := by
  unfold managerReqStep
  repeat' split
  all_goals rfl

theorem managerReqStep_cwd (o : Oracle) (w : W) : (managerReqStep o w).cwd = w.cwd := by
  unfold managerReqStep
  repeat' split
  all_goals rfl

theorem dirsStep_err (o : Oracle) (w : W) : (dirsStep o w).err = w.err := by
  unfold dirsStep
  split <;> rfl

theorem dirsStep_env (o : Oracle) (w : W) : (dirsStep o w).env = w.env := by
  unfold dirsStep
  split <;> rfl

theorem dirsStep_cwd (o : Oracle) (w : W) : (dirsStep o w).cwd = w.cwd := by
  unfold dirsStep
  split <;> rfl

theorem dirsStep_tr (o : Oracle) (w : W) : (dirsStep o w).tr = w.tr := by
  unfold dirsStep
  split <;> rfl

theorem runTask_err (o : Oracle) (w : W) (t : ModelTask) : (runTask o w t).err = w.err := by
  unfold runTask
  repeat' split
  all_goals rfl

theorem runTask_env (o : Oracle) (w : W) (t : ModelTask) : (runTask o w t).env = w.env := by
  unfold runTask
  repeat' split
  all_goals rfl

theorem runTask_cwd (o : Oracle) (w : W) (t : ModelTask) : (runTask o w t).cwd = w.cwd := by
  unfold runTask
  repeat' split
  all_goals rfl

theorem runTasks_err (o : Oracle) (ts : List ModelTask) (w : W) :
    (runTasks o ts w).err = w.err := by
  induction ts generalizing w with
  | nil => rfl
  | cons t rest ih => rw [runTasks, ih, runTask_err]

theorem runTasks_env (o : Oracle) (ts : List ModelTask) (w : W) :
    (runTasks o ts w).env = w.env := by
  induction ts generalizing w with
  | nil => rfl
  | cons t rest ih => rw [runTasks, ih, runTask_env]

theorem runTasks_cwd (o : Oracle) (ts : List ModelTask) (w : W) :
    (runTasks o ts w).cwd = w.cwd := by
  induction ts generalizing w with
  | nil => rfl
  | cons t rest ih => rw [runTasks, ih, runTask_cwd]

theorem extrasStep_err (o : Oracle) (w : W) : (extrasStep o w).err = w.err := by
  unfold extrasStep
  split <;> rfl

theorem extrasStep_env (o : Oracle) (w : W) : (extrasStep o w).env = w.env := by
  unfold extrasStep
  split <;> rfl

theorem extrasStep_fs (o : Oracle) (w : W) : (extrasStep o w).fs = w.fs := by
  unfold extrasStep
  split <;> rfl

theorem extrasStep_cwd (o : Oracle) (w : W) : (extrasStep o w).cwd = w.cwd := by
  unfold extrasStep
  split <;> rfl

theorem launchStep_err_peel (o : Oracle) (w : W) (h : (launchStep o w).err = none) :
    w.err = none := by
  by_contra hw
  unfold launchStep at h
  rw [if_pos hw] at h
  exact hw h

theorem launchStep_err_fwd (o : Oracle) (w : W) (h : w.err = none)
    (hp : o.popenOk = true) : (launchStep o w).err = none := by
  unfold launchStep
  rw [if_neg (by simp [h]), hp]
  rw [if_pos rfl]
  exact h

theorem launchStep_fs (o : Oracle) (w : W) : (launchStep o w).fs = w.fs := by
  unfold launchStep
  repeat' split
  all_goals rfl

theorem launchStep_tr (o : Oracle) (w : W) (h : w.err = none) (hp : o.popenOk = true) :
    (launchStep o w).tr = w.tr ++ [Ev.setenv "COMFY_DIR" DATA_BASE_STR,
      Ev.popen DATA_BASE launch_cmd (envSet "COMFY_DIR" DATA_BASE_STR w.env)] := by
  unfold launchStep
  rw [if_neg (by simp [h]), hp, if_pos rfl]

/-! ### Per-step trace lemmas -/

theorem gitEvts_fetch (r f : String) (d : FsPath) : gitEvts [Ev.fetch r f] d = [] := rfl

theorem gitEvts_setenv (n v : String) (d : FsPath) : gitEvts [Ev.setenv n v] d = [] := rfl

theorem gitEvts_popen (c : FsPath) (a : List String) (e : List (String × String)) (d : FsPath) :
    gitEvts [Ev.popen c a e] d = [] := rfl

theorem bootstrapStep_fetch (o : Oracle) (w : W) (r f : String) :
    (Ev.fetch r f ∈ (bootstrapStep o w).tr ↔ Ev.fetch r f ∈ w.tr) := by
  unfold bootstrapStep
  repeat' split
  all_goals simp [List.mem_append]

theorem bootstrapStep_gitMgr (o : Oracle) (w : W) :
    gitEvts (bootstrapStep o w).tr manager_dir = gitEvts w.tr manager_dir := by
  unfold bootstrapStep
  repeat' split
  all_goals first
    | rfl
    | (dsimp only
       rw [gitEvts_append, gitEvts_sub_nongit _ _ (by decide)]
       simp)

theorem backendUpdateStep_fetch (o : Oracle) (w : W) (r f : String) :
    (Ev.fetch r f ∈ (backendUpdateStep o w).tr ↔ Ev.fetch r f ∈ w.tr) := by
  unfold backendUpdateStep
  repeat' split
  all_goals first
    | simp [List.mem_append]
    | (rw [gitCfgPull_fetch]
       dsimp only
       simp [List.mem_append])

theorem backendUpdateStep_gitMgr (o : Oracle) (w : W) :
    gitEvts (backendUpdateStep o w).tr manager_dir = gitEvts w.tr manager_dir := by
  unfold backendUpdateStep
  repeat' split
  all_goals first
    | rfl
    | (first
        | rw [gitCfgPull_gitEvts_ne o _ (by decide : DATA_BASE ≠ manager_dir)]
        | skip
       dsimp only
       repeat rw [gitEvts_cons]
       repeat rw [gitEvts_append]
       repeat rw [gitEvts_sub_ne _ (by decide : DATA_BASE ≠ manager_dir)]
       simp [gitEvts_cons, gitEvts_sub_ne _ (by decide : DATA_BASE ≠ manager_dir)])

theorem managerStep_fetch (o : Oracle) (w : W) (r f : String) :
    (Ev.fetch r f ∈ (managerStep o w).tr ↔ Ev.fetch r f ∈ w.tr) := by
  unfold managerStep
  split
  · exact Iff.rfl
  split
  · dsimp only
    rw [gitCfgPull_fetch]
  · dsimp only
    simp [List.mem_append]

theorem managerStep_git_present (o : Oracle) (w : W) (herr : w.err = none)
    (hm : w.fs.pathExists manager_dir = true) :
    gitEvts (managerStep o w).tr manager_dir =
      gitEvts w.tr manager_dir ++ "git config pull.ff only" ::
        (if o.subOk manager_dir "git config pull.ff only" = true
          then ["git pull --ff-only"] else []) := by
  unfold managerStep
  rw [if_neg (by simp [herr]), if_pos hm]
  dsimp only
  rw [gitCfgPull_gitEvts_self]

theorem managerStep_install (o : Oracle) (w : W) (herr : w.err = none)
    (hm : w.fs.pathExists manager_dir = false) :
    (managerStep o w).tr = w.tr ++ [Ev.sub w.cwd "comfy node install ComfyUI-Manager"] := by
  unfold managerStep
  rw [if_neg (by simp [herr]), if_neg (by simp [hm])]

theorem pipUpgradeStep_fetch (o : Oracle) (w : W) (r f : String) :
    (Ev.fetch r f ∈ (pipUpgradeStep o w).tr ↔ Ev.fetch r f ∈ w.tr) := by
  unfold pipUpgradeStep
  split
  all_goals simp [List.mem_append]

theorem pipUpgradeStep_gitMgr (o : Oracle) (w : W) (d : FsPath) :
    gitEvts (pipUpgradeStep o w).tr d = gitEvts w.tr d := by
  unfold pipUpgradeStep
  split
  · rfl
  · dsimp only
    rw [gitEvts_append, gitEvts_sub_nongit _ _ (by decide)]
    simp

theorem comfyCliStep_fetch (o : Oracle) (w : W) (r f : String) :
    (Ev.fetch r f ∈ (comfyCliStep o w).tr ↔ Ev.fetch r f ∈ w.tr) := by
  unfold comfyCliStep
  split
  all_goals simp [List.mem_append]

theorem comfyCliStep_gitMgr (o : Oracle) (w : W) (d : FsPath) :
    gitEvts (comfyCliStep o w).tr d = gitEvts w.tr d := by
  unfold comfyCliStep
  split
  · rfl
  · dsimp only
    rw [gitEvts_append, gitEvts_sub_nongit _ _ (by decide)]
    simp

theorem frontendReqStep_fetch (o : Oracle) (w : W) (r f : String) :
    (Ev.fetch r f ∈ (frontendReqStep o w).tr ↔ Ev.fetch r f ∈ w.tr) := by
  unfold frontendReqStep
  repeat' split
  all_goals simp [List.mem_append]

theorem frontendReqStep_gitMgr (o : Oracle) (w : W) (d : FsPath) :
    gitEvts (frontendReqStep o w).tr d = gitEvts w.tr d := by
  unfold frontendReqStep
  repeat' split
  all_goals first
    | rfl
    | (dsimp only
       rw [gitEvts_append, gitEvts_sub_nongit _ _ (by decide)]
       simp)

theorem managerReqStep_fetch (o : Oracle) (w : W) (r f : String) :
    (Ev.fetch r f ∈ (managerReqStep o w).tr ↔ Ev.fetch r f ∈ w.tr) := by
  unfold managerReqStep
  repeat' split
  all_goals simp [List.mem_append]

theorem managerReqStep_gitMgr (o : Oracle) (w : W) (d : FsPath) :
    gitEvts (managerReqStep o w).tr d = gitEvts w.tr d := by
  unfold managerReqStep
  repeat' split
  all_goals first
    | rfl
    | (dsimp only
       rw [gitEvts_append, gitEvts_sub_nongit _ _ (by decide)]
       simp)

theorem runTask_tr_shape (o : Oracle) (w : W) (t : ModelTask) :
    (runTask o w t).tr = w.tr ∨
      (runTask o w t).tr = w.tr ++ [Ev.fetch t.repo_id t.filename] := by
  unfold runTask
  repeat' split
  all_goals first | exact Or.inl rfl | exact Or.inr rfl

theorem runTask_fetch_ne (o : Oracle) (w : W) (t : ModelTask) {r f : String}
    (h : ¬(t.repo_id = r ∧ t.filename = f)) :
    (Ev.fetch r f ∈ (runTask o w t).tr ↔ Ev.fetch r f ∈ w.tr) := by
  rcases runTask_tr_shape o w t with h1 | h1 <;> rw [h1]
  rw [List.mem_append]
  constructor
  · rintro (h2 | h2)
    · exact h2
    · simp only [List.mem_singleton, Ev.fetch.injEq] at h2
      exact absurd ⟨h2.1.symm, h2.2.symm⟩ h
  · exact Or.inl

theorem runTask_gitEvts (o : Oracle) (w : W) (t : ModelTask) (d : FsPath) :
    gitEvts (runTask o w t).tr d = gitEvts w.tr d := by
  rcases runTask_tr_shape o w t with h1 | h1 <;> rw [h1]
  rw [gitEvts_append, gitEvts_fetch]
  simp

theorem runTasks_gitEvts (o : Oracle) (ts : List ModelTask) (w : W) (d : FsPath) :
    gitEvts (runTasks o ts w).tr d = gitEvts w.tr d := by
  induction ts generalizing w with
  | nil => rfl
  | cons t rest ih => rw [runTasks, ih, runTask_gitEvts]

theorem extrasStep_fetch (o : Oracle) (w : W) (r f : String) :
    (Ev.fetch r f ∈ (extrasStep o w).tr ↔ Ev.fetch r f ∈ w.tr) := by
  unfold extrasStep
  split
  all_goals simp [List.mem_append, extra_cmds]

theorem extrasStep_gitEvts (o : Oracle) (w : W) (d : FsPath) :
    gitEvts (extrasStep o w).tr d = gitEvts w.tr d := by
  unfold extrasStep
  split
  · rfl
  · dsimp only
    rw [show extra_cmds.map (fun c => Ev.sub DATA_BASE c)
        = [Ev.sub DATA_BASE (extra_cmds.get ⟨0, by decide⟩)] from rfl]
    rw [gitEvts_append, gitEvts_sub_nongit _ _ (by decide)]
    simp

theorem launchStep_fetch (o : Oracle) (w : W) (r f : String) :
    (Ev.fetch r f ∈ (launchStep o w).tr ↔ Ev.fetch r f ∈ w.tr) := by
  unfold launchStep
  repeat' split
  all_goals simp [List.mem_append]

theorem launchStep_gitEvts (o : Oracle) (w : W) (d : FsPath) :
    gitEvts (launchStep o w).tr d = gitEvts w.tr d := by
  unfold launchStep
  repeat' split
  all_goals first
    | rfl
    | (dsimp only
       rw [gitEvts_append]
       first
        | rw [gitEvts_cons, gitEvts_setenv, gitEvts_popen]
        | rw [gitEvts_setenv]
       simp [gitEvts_cons, gitEvts_setenv, gitEvts_popen])

/-! ### Filesystem frame lemmas for the state-changing steps -/

theorem leadsTo_append_cancel (a : FsPath) : ∀ b c, leadsTo (a ++ b) (a ++ c) = leadsTo b c := by
  induction a with
  | nil => intro b c; rfl
  | cons x as ih =>
    intro b c
    show (decide (x = x) && leadsTo (as ++ b) (as ++ c)) = leadsTo b c
    rw [ih]
    simp

theorem bootstrapStep_read_frame (o : Oracle) (w : W) {r : FsPath} (hr : r ≠ [])
    (himg : w.fs.read (DEFAULT_COMFY_DIR ++ r) = none) :
    (bootstrapStep o w).fs.read (DATA_BASE ++ r) = w.fs.read (DATA_BASE ++ r) := by
  unfold bootstrapStep
  repeat' split
  all_goals (try dsimp only)
  all_goals first
    | rfl
    | (rw [read_copytree_fall _ _ _ hr (by rw [read_mkdir]; exact himg)]
       simp only [read_mkdir])
    | simp only [read_mkdir]

theorem bootstrapStep_read_create (o : Oracle) (w : W) {r : FsPath} {c : String} (hr : r ≠ [])
    (h1 : w.fs.pathExists MAIN_PY = false)
    (h2 : w.fs.pathExists DEFAULT_COMFY_DIR = true)
    (h3 : o.subOk w.cwd cp_cmd = true)
    (herr : w.err = none)
    (hc : w.fs.read (DEFAULT_COMFY_DIR ++ r) = some c) :
    (bootstrapStep o w).fs.read (DATA_BASE ++ r) = some c := by
  unfold bootstrapStep
  rw [if_neg (by simp [herr]), if_neg (by simp [h1]), if_pos h2, if_pos h3]
  dsimp only
  exact read_copytree_hit _ _ _ hr (by rw [read_mkdir]; exact hc)

theorem bootstrapStep_pathExists_mono (o : Oracle) (w : W) {p : FsPath}
    (hp : w.fs.pathExists p = true) : (bootstrapStep o w).fs.pathExists p = true := by
  unfold bootstrapStep
  repeat' split
  all_goals (try dsimp only)
  all_goals first
    | exact hp
    | exact pathExists_copytree_mono _ _ _ (pathExists_mkdir_mono _ _ hp)
    | exact pathExists_mkdir_mono _ _ (pathExists_mkdir_mono _ _ hp)
    | exact pathExists_mkdir_mono _ _ hp

theorem not_leads_backup_of_not_under {p : FsPath} (h : under manager_config_dir p = false) :
    leadsTo backup_dir p = false := by
  cases hl : leadsTo backup_dir p
  · rfl
  · exfalso
    obtain ⟨r, hr⟩ := (leadsTo_iff backup_dir p).mp hl
    have h2 : under manager_config_dir p = true := by
      rw [hr, show backup_dir ++ r = manager_config_dir ++ ([".legacy-manager-backup"] ++ r)
        from by simp [backup_dir]]
      exact under_append _ (by simp)
    rw [h2] at h
    cases h

theorem migrateStep_read_frame (o : Oracle) (w : W) {p : FsPath}
    (h1 : under manager_config_dir p = false)
    (h2 : leadsTo legacy_dir p = false) :
    (migrateStep o w).fs.read p = w.fs.read p := by
  have h3 := not_leads_backup_of_not_under h1
  unfold migrateStep
  repeat' split
  all_goals (try dsimp only)
  all_goals first
    | rfl
    | (rw [read_rmtree_of_not _ h3, read_rmtree_of_not _ h2,
        read_copytree_out _ h1, read_mkdir])
    | (rw [read_rmtree_of_not _ h2, read_copytree_out _ h1, read_mkdir])
    | rw [read_mkdir]
    | rw [read_rmtree_of_not _ h3]

theorem migrateStep_read_migrated (o : Oracle) (w : W) {r : FsPath} {c : String}
    (hleg : w.fs.pathExists legacy_dir = true)
    (hmig : o.migCopyOk = true) (herr : w.err = none) (hr : r ≠ [])
    (hb : leadsTo [".legacy-manager-backup"] r = false)
    (hc : w.fs.read (legacy_dir ++ r) = some c) :
    (migrateStep o w).fs.read (manager_config_dir ++ r) = some c := by
  have hrm : ((((w.fs.mkdir manager_config_dir).copytree legacy_dir
      manager_config_dir)).rmtree legacy_dir).read (manager_config_dir ++ r) = some c := by
    rw [read_rmtree_of_not _ (not_leadsTo_of_idx
      (show legacy_dir.get? 4 = some "default" from rfl)
      (show (manager_config_dir ++ r).get? 4 = some "__manager" from rfl) (by decide))]
    exact read_copytree_hit _ _ _ hr (by rw [read_mkdir]; exact hc)
  have hbk : leadsTo backup_dir (manager_config_dir ++ r) = false := by
    rw [show backup_dir = manager_config_dir ++ [".legacy-manager-backup"] from rfl,
      leadsTo_append_cancel]
    exact hb
  unfold migrateStep
  rw [if_neg (by simp [herr]), if_pos hleg, if_pos hmig]
  split
  · dsimp only
    rw [read_rmtree_of_not _ hbk]
    exact hrm
  · dsimp only
    exact hrm

theorem migrateStep_legacy_gone (o : Oracle) (w : W)
    (hleg : w.fs.pathExists legacy_dir = true)
    (herr2 : (migrateStep o w).err = none) :
    (migrateStep o w).fs.pathExists legacy_dir = false := by
  have herr := migrateStep_err_peel o w herr2
  have hmig := migrateStep_migCopyOk o w herr2 hleg
  unfold migrateStep
  rw [if_neg (by simp [herr]), if_pos hleg, if_pos hmig]
  split
  · dsimp only
    cases hq : ((((w.fs.mkdir manager_config_dir).copytree legacy_dir
        manager_config_dir).rmtree legacy_dir).rmtree backup_dir).pathExists legacy_dir
    · rfl
    · exfalso
      have h5 := pathExists_rmtree_le _ hq
      rw [pathExists_rmtree_leads _ (leadsTo_refl _)] at h5
      cases h5
  · dsimp only
    exact pathExists_rmtree_leads _ (leadsTo_refl _)

theorem migrateStep_pathExists_pres (o : Oracle) (w : W) {p : FsPath}
    (h1 : leadsTo legacy_dir p = false)
    (h2 : leadsTo backup_dir p = false)
    (hp : w.fs.pathExists p = true) :
    (migrateStep o w).fs.pathExists p = true := by
  unfold migrateStep
  repeat' split
  all_goals (try dsimp only)
  all_goals first
    | exact hp
    | (rw [pathExists_rmtree_of_not _ h2, pathExists_rmtree_of_not _ h1]
       exact pathExists_copytree_mono _ _ _ (pathExists_mkdir_mono _ _ hp))
    | (rw [pathExists_rmtree_of_not _ h1]
       exact pathExists_copytree_mono _ _ _ (pathExists_mkdir_mono _ _ hp))
    | (rw [pathExists_rmtree_of_not _ h2]; exact hp)
    | exact pathExists_mkdir_mono _ _ hp

theorem configStep_read_self (o : Oracle) (w : W) (herr : w.err = none) :
    (configStep o w).fs.read manager_config_path = some config_content := by
  unfold configStep
  rw [if_neg (by simp [herr])]
  dsimp only
  exact read_write_self _ _ _

theorem configStep_read_frame (o : Oracle) (w : W) {p : FsPath}
    (h : p ≠ manager_config_path) :
    (configStep o w).fs.read p = w.fs.read p := by
  unfold configStep
  split
  · rfl
  · dsimp only
    rw [read_write_ne _ _ (Ne.symm h), read_mkdir]

theorem configStep_pathExists_pres (o : Oracle) (w : W) {p : FsPath}
    (hp : w.fs.pathExists p = true) : (configStep o w).fs.pathExists p = true := by
  unfold configStep
  split
  · exact hp
  · dsimp only
    exact pathExists_write_mono _ _ _ (pathExists_mkdir_mono _ _ hp)

theorem configStep_pathExists_false (o : Oracle) (w : W) {p : FsPath}
    (h1 : p ≠ manager_config_dir) (h2 : p ≠ manager_config_path)
    (hp : w.fs.pathExists p = false) : (configStep o w).fs.pathExists p = false := by
  unfold configStep
  split
  · exact hp
  · dsimp only
    rw [pathExists_write_ne _ _ (Ne.symm h2), pathExists_mkdir_ne _ (Ne.symm h1)]
    exact hp

theorem dirsStep_read (o : Oracle) (w : W) (p : FsPath) :
    (dirsStep o w).fs.read p = w.fs.read p := by
  unfold dirsStep
  split
  · rfl
  · dsimp only
    rw [read_mkdir, read_mkdir, read_mkdir]

theorem dirsStep_pathExists_pres (o : Oracle) (w : W) {p : FsPath}
    (hp : w.fs.pathExists p = true) : (dirsStep o w).fs.pathExists p = true := by
  unfold dirsStep
  split
  · exact hp
  · dsimp only
    exact pathExists_mkdir_mono _ _ (pathExists_mkdir_mono _ _ (pathExists_mkdir_mono _ _ hp))

theorem dirsStep_pathExists_false (o : Oracle) (w : W) {p : FsPath}
    (h1 : p ≠ CUSTOM_NODES_DIR) (h2 : p ≠ MODELS_DIR) (h3 : p ≠ TMP_DL)
    (hp : w.fs.pathExists p = false) : (dirsStep o w).fs.pathExists p = false := by
  unfold dirsStep
  split
  · exact hp
  · dsimp only
    rw [pathExists_mkdir_ne _ (Ne.symm h3), pathExists_mkdir_ne _ (Ne.symm h2),
      pathExists_mkdir_ne _ (Ne.symm h1)]
    exact hp

/-! ### The model-task loop -/

theorem hf_download_eq (t : ModelTask) (fs : FS) :
    hf_download t.subdir t.filename t.repo_id t.subfolder fs
    = ((fs.write (scratchPath t) (blob t.repo_id t.filename)).mkdir
        (MODELS_DIR ++ t.subdir)).move (scratchPath t) (taskTarget t) := rfl

theorem runTask_skip (o : Oracle) (w : W) (t : ModelTask)
    (h : w.fs.pathExists (taskTarget t) = true) : runTask o w t = w := by
  unfold runTask
  repeat' split
  all_goals first | rfl | simp_all

theorem runTask_read_frame (o : Oracle) (w : W) (t : ModelTask) {p : FsPath}
    (hsc : scratchPath t ≠ p) (htg : taskTarget t ≠ p) :
    (runTask o w t).fs.read p = w.fs.read p := by
  unfold runTask
  repeat' split
  all_goals first
    | rfl
    | (dsimp only
       rw [hf_download_eq, read_move_ne _ hsc htg, read_mkdir, read_write_ne _ _ hsc])

theorem runTask_pathExists_pres (o : Oracle) (w : W) (t : ModelTask) {p : FsPath}
    (hsc : scratchPath t ≠ p) (hp : w.fs.pathExists p = true) :
    (runTask o w t).fs.pathExists p = true := by
  unfold runTask
  repeat' split
  all_goals first
    | exact hp
    | (dsimp only
       rw [hf_download_eq]
       by_cases htg : taskTarget t = p
       · subst htg
         exact pathExists_move_dst _ _ (by rw [read_mkdir]; exact read_write_self _ _ _)
       · rw [pathExists_move_ne _ hsc htg]
         exact pathExists_mkdir_mono _ _ (pathExists_write_mono _ _ _ hp))

theorem runTask_pathExists_false (o : Oracle) (w : W) (t : ModelTask) {p : FsPath}
    (hsc : scratchPath t ≠ p) (hmd : MODELS_DIR ++ t.subdir ≠ p) (htg : taskTarget t ≠ p)
    (hp : w.fs.pathExists p = false) :
    (runTask o w t).fs.pathExists p = false := by
  unfold runTask
  repeat' split
  all_goals first
    | exact hp
    | (dsimp only
       rw [hf_download_eq, pathExists_move_ne _ hsc htg, pathExists_mkdir_ne _ hmd,
         pathExists_write_ne _ _ hsc]
       exact hp)

theorem runTask_sat (o : Oracle) (w : W) (t : ModelTask) (herr : w.err = none)
    (hdl : o.dlOk t.repo_id t.filename = true) :
    (runTask o w t).fs.pathExists (taskTarget t) = true := by
  unfold runTask
  repeat' split
  all_goals (try dsimp only)
  all_goals first
    | assumption
    | (rw [hf_download_eq]
       exact pathExists_move_dst _ _ (by rw [read_mkdir]; exact read_write_self _ _ _))
    | simp_all

theorem runTask_fetch_self (o : Oracle) (w : W) (t : ModelTask) (herr : w.err = none)
    (hne : w.fs.pathExists (taskTarget t) = false) :
    Ev.fetch t.repo_id t.filename ∈ (runTask o w t).tr := by
  unfold runTask
  repeat' split
  all_goals first
    | simp [List.mem_append]
    | simp_all

theorem runTask_tr_mono (o : Oracle) (w : W) (t : ModelTask) {e : Ev} (h : e ∈ w.tr) :
    e ∈ (runTask o w t).tr := by
  rcases runTask_tr_shape o w t with h1 | h1 <;> rw [h1]
  · exact h
  · exact List.mem_append_left _ h

theorem runTasks_tr_mono (o : Oracle) (ts : List ModelTask) (w : W) {e : Ev}
    (h : e ∈ w.tr) : e ∈ (runTasks o ts w).tr := by
  induction ts generalizing w with
  | nil => exact h
  | cons t rest ih => exact ih _ (runTask_tr_mono o w t h)

theorem runTasks_read_frame (o : Oracle) (ts : List ModelTask) (w : W) {p : FsPath}
    (h : ∀ t ∈ ts, scratchPath t ≠ p ∧ taskTarget t ≠ p) :
    (runTasks o ts w).fs.read p = w.fs.read p := by
  induction ts generalizing w with
  | nil => rfl
  | cons t rest ih =>
    rw [runTasks, ih _ (fun u hu => h u (List.mem_cons_of_mem t hu)),
      runTask_read_frame o w t (h t (List.mem_cons_self t rest)).1
        (h t (List.mem_cons_self t rest)).2]

theorem runTasks_pathExists_pres (o : Oracle) (ts : List ModelTask) (w : W) {p : FsPath}
    (h : ∀ t ∈ ts, scratchPath t ≠ p) (hp : w.fs.pathExists p = true) :
    (runTasks o ts w).fs.pathExists p = true := by
  induction ts generalizing w with
  | nil => exact hp
  | cons t rest ih =>
    exact ih _ (fun u hu => h u (List.mem_cons_of_mem t hu))
      (runTask_pathExists_pres o w t (h t (List.mem_cons_self t rest)) hp)

theorem runTasks_pathExists_false (o : Oracle) (ts : List ModelTask) (w : W) {p : FsPath}
    (h : ∀ t ∈ ts, scratchPath t ≠ p ∧ (MODELS_DIR ++ t.subdir) ≠ p ∧ taskTarget t ≠ p)
    (hp : w.fs.pathExists p = false) :
    (runTasks o ts w).fs.pathExists p = false := by
  induction ts generalizing w with
  | nil => exact hp
  | cons t rest ih =>
    exact ih _ (fun u hu => h u (List.mem_cons_of_mem t hu))
      (runTask_pathExists_false o w t (h t (List.mem_cons_self t rest)).1
        (h t (List.mem_cons_self t rest)).2.1
        (h t (List.mem_cons_self t rest)).2.2 hp)

theorem runTasks_skip_fetch (o : Oracle) (ts : List ModelTask) (w : W) {P : FsPath}
    {r f : String} (hp : w.fs.pathExists P = true)
    (hP : ∀ t ∈ ts, (taskTarget t = P ↔ (t.repo_id = r ∧ t.filename = f)))
    (hsc : ∀ t ∈ ts, scratchPath t ≠ P) :
    (Ev.fetch r f ∈ (runTasks o ts w).tr ↔ Ev.fetch r f ∈ w.tr) := by
  induction ts generalizing w with
  | nil => exact Iff.rfl
  | cons t rest ih =>
    rw [runTasks]
    by_cases hpair : t.repo_id = r ∧ t.filename = f
    · have htg : taskTarget t = P := (hP t (List.mem_cons_self t rest)).mpr hpair
      rw [runTask_skip o w t (htg ▸ hp)]
      exact ih _ hp (fun u hu => hP u (List.mem_cons_of_mem t hu))
        (fun u hu => hsc u (List.mem_cons_of_mem t hu))
    · rw [ih _ (runTask_pathExists_pres o w t (hsc t (List.mem_cons_self t rest)) hp)
        (fun u hu => hP u (List.mem_cons_of_mem t hu))
        (fun u hu => hsc u (List.mem_cons_of_mem t hu))]
      exact runTask_fetch_ne o w t hpair

theorem runTasks_dl_sat (o : Oracle) (ts : List ModelTask) (w : W)
    (herr : w.err = none)
    (hsc : ∀ a ∈ ts, ∀ b ∈ ts, scratchPath a ≠ taskTarget b) :
    ∀ t ∈ ts, o.dlOk t.repo_id t.filename = true →
      (runTasks o ts w).fs.pathExists (taskTarget t) = true := by
  induction ts generalizing w with
  | nil => intro t ht; cases ht
  | cons a rest ih =>
    intro t ht hdl
    rw [runTasks]
    rcases List.mem_cons.mp ht with rfl | ht2
    · exact runTasks_pathExists_pres o rest _
        (fun u hu => hsc u (List.mem_cons_of_mem t hu) t (List.mem_cons_self t rest))
        (runTask_sat o w t herr hdl)
    · exact ih _ (by rw [runTask_err]; exact herr)
        (fun x hx y hy => hsc x (List.mem_cons_of_mem a hx) y (List.mem_cons_of_mem a hy))
        t ht2 hdl

theorem runTasks_attempts (o : Oracle) (ts : List ModelTask) (w : W)
    (herr : w.err = none)
    (hsc : ∀ a ∈ ts, ∀ b ∈ ts, scratchPath a ≠ taskTarget b) :
    ∀ t ∈ ts, Ev.fetch t.repo_id t.filename ∈ (runTasks o ts w).tr ∨
      (runTasks o ts w).fs.pathExists (taskTarget t) = true := by
  induction ts generalizing w with
  | nil => intro t ht; cases ht
  | cons a rest ih =>
    intro t ht
    rw [runTasks]
    rcases List.mem_cons.mp ht with rfl | ht2
    · cases hx : w.fs.pathExists (taskTarget t)
      · left
        exact runTasks_tr_mono o rest _ (runTask_fetch_self o w t herr hx)
      · right
        rw [runTask_skip o w t hx]
        exact runTasks_pathExists_pres o rest _
          (fun u hu => hsc u (List.mem_cons_of_mem t hu) t (List.mem_cons_self t rest)) hx
    · exact ih _ (by rw [runTask_err]; exact herr)
        (fun x hx y hy => hsc x (List.mem_cons_of_mem a hx) y (List.mem_cons_of_mem a hy))
        t ht2

/-! ### Composition helpers along the whole run -/

theorem pathExists_of_read (fs : FS) (p : FsPath) (c : String) (h : fs.read p = some c) :
    fs.pathExists p = true := by
  unfold FS.pathExists FS.isFile
  rw [h]
  rfl

theorem runTasks_read_pres (o : Oracle) (ts : List ModelTask) (w : W) {P : FsPath}
    {c : String} (hp : w.fs.read P = some c)
    (hsc : ∀ t ∈ ts, scratchPath t ≠ P) :
    (runTasks o ts w).fs.read P = some c := by
  induction ts generalizing w with
  | nil => exact hp
  | cons t rest ih =>
    rw [runTasks]
    by_cases htg : taskTarget t = P
    · rw [runTask_skip o w t (htg ▸ pathExists_of_read _ _ _ hp)]
      exact ih _ hp (fun u hu => hsc u (List.mem_cons_of_mem t hu))
    · have hrd : (runTask o w t).fs.read P = some c := by
        rw [runTask_read_frame o w t (hsc t (List.mem_cons_self t rest)) htg]
        exact hp
      exact ih _ hrd (fun u hu => hsc u (List.mem_cons_of_mem t hu))

theorem ui_err_extras (o : Oracle) (fs : FS) (cwd : FsPath) (env : List (String × String))
    (h : (ui o fs cwd env).err = none) : (w_extras o fs cwd env).err = none :=
  launchStep_err_peel o _ h

theorem extras_err_eq_config (o : Oracle) (fs : FS) (cwd : FsPath)
    (env : List (String × String)) :
    (w_extras o fs cwd env).err = (w_config o fs cwd env).err := by
  unfold w_extras w_models modelsStep w_dirs w_mgrReq w_feReq w_cli w_pip w_manager
  rw [extrasStep_err, runTasks_err, dirsStep_err, managerReqStep_err, frontendReqStep_err,
    comfyCliStep_err, pipUpgradeStep_err, managerStep_err]

theorem config_err_eq_migrate (o : Oracle) (fs : FS) (cwd : FsPath)
    (env : List (String × String)) :
    (w_config o fs cwd env).err = (w_migrate o fs cwd env).err := by
  unfold w_config
  rw [configStep_err]

theorem backend_err_eq_boot (o : Oracle) (fs : FS) (cwd : FsPath)
    (env : List (String × String)) :
    (w_backend o fs cwd env).err = (w_boot o fs cwd env).err := by
  unfold w_backend
  rw [backendUpdateStep_err]

theorem ui_err_config (o : Oracle) (fs : FS) (cwd : FsPath) (env : List (String × String))
    (h : (ui o fs cwd env).err = none) : (w_config o fs cwd env).err = none := by
  rw [← extras_err_eq_config]
  exact ui_err_extras o fs cwd env h

theorem ui_err_migrate (o : Oracle) (fs : FS) (cwd : FsPath) (env : List (String × String))
    (h : (ui o fs cwd env).err = none) : (w_migrate o fs cwd env).err = none := by
  rw [← config_err_eq_migrate]
  exact ui_err_config o fs cwd env h

theorem ui_err_backend (o : Oracle) (fs : FS) (cwd : FsPath) (env : List (String × String))
    (h : (ui o fs cwd env).err = none) : (w_backend o fs cwd env).err = none :=
  migrateStep_err_peel o _ (ui_err_migrate o fs cwd env h)

theorem ui_err_boot (o : Oracle) (fs : FS) (cwd : FsPath) (env : List (String × String))
    (h : (ui o fs cwd env).err = none) : (w_boot o fs cwd env).err = none := by
  rw [← backend_err_eq_boot]
  exact ui_err_backend o fs cwd env h

theorem w_extras_env_eq (o : Oracle) (fs : FS) (cwd : FsPath)
    (env : List (String × String)) : (w_extras o fs cwd env).env = env := by
  unfold w_extras w_models modelsStep w_dirs w_mgrReq w_feReq w_cli w_pip w_manager
    w_config w_migrate w_backend w_boot
  rw [extrasStep_env, runTasks_env, dirsStep_env, managerReqStep_env, frontendReqStep_env,
    comfyCliStep_env, pipUpgradeStep_env, managerStep_env, configStep_env, migrateStep_env,
    backendUpdateStep_env, bootstrapStep_env]
  rfl

theorem w_config_cwd (o : Oracle) (fs : FS) (cwd : FsPath) (env : List (String × String))
    (h : (w_config o fs cwd env).err = none) : (w_config o fs cwd env).cwd = DATA_BASE := by
  have h2 : (w_migrate o fs cwd env).err = none := by
    rw [← config_err_eq_migrate]; exact h
  have h3 : (w_boot o fs cwd env).err = none := by
    rw [← backend_err_eq_boot]
    exact migrateStep_err_peel o _ h2
  unfold w_config w_migrate
  rw [configStep_cwd, migrateStep_cwd]
  unfold w_backend
  exact backendUpdateStep_cwd o _ h3

theorem ui_fs_eq_models (o : Oracle) (fs : FS) (cwd : FsPath)
    (env : List (String × String)) :
    (ui o fs cwd env).fs = (w_models o fs cwd env).fs := by
  unfold ui w_extras
  rw [launchStep_fs, extrasStep_fs]

theorem mgrReq_fs_eq_config (o : Oracle) (fs : FS) (cwd : FsPath)
    (env : List (String × String)) :
    (w_mgrReq o fs cwd env).fs = (w_config o fs cwd env).fs := by
  unfold w_mgrReq w_feReq w_cli w_pip w_manager
  rw [managerReqStep_fs, frontendReqStep_fs, comfyCliStep_fs, pipUpgradeStep_fs,
    managerStep_fs]

theorem backend_fs_eq_boot (o : Oracle) (fs : FS) (cwd : FsPath)
    (env : List (String × String)) :
    (w_backend o fs cwd env).fs = (w_boot o fs cwd env).fs := by
  unfold w_backend
  rw [backendUpdateStep_fs]

theorem dirs_read_eq_config (o : Oracle) (fs : FS) (cwd : FsPath)
    (env : List (String × String)) (p : FsPath) :
    (w_dirs o fs cwd env).fs.read p = (w_config o fs cwd env).fs.read p := by
  unfold w_dirs
  rw [dirsStep_read, mgrReq_fs_eq_config]

theorem no_fetch_pre_models (o : Oracle) (fs : FS) (cwd : FsPath)
    (env : List (String × String)) (r f : String) :
    Ev.fetch r f ∉ (w_dirs o fs cwd env).tr := by
  intro hmem
  unfold w_dirs at hmem; rw [dirsStep_tr] at hmem
  unfold w_mgrReq at hmem; rw [managerReqStep_fetch] at hmem
  unfold w_feReq at hmem; rw [frontendReqStep_fetch] at hmem
  unfold w_cli at hmem; rw [comfyCliStep_fetch] at hmem
  unfold w_pip at hmem; rw [pipUpgradeStep_fetch] at hmem
  unfold w_manager at hmem; rw [managerStep_fetch] at hmem
  unfold w_config at hmem; rw [configStep_tr] at hmem
  unfold w_migrate at hmem; rw [migrateStep_tr] at hmem
  unfold w_backend at hmem; rw [backendUpdateStep_fetch] at hmem
  unfold w_boot at hmem; rw [bootstrapStep_fetch] at hmem
  simp [W.init] at hmem

theorem ui_fetch_iff_models (o : Oracle) (fs : FS) (cwd : FsPath)
    (env : List (String × String)) (r f : String) :
    (Ev.fetch r f ∈ (ui o fs cwd env).tr ↔ Ev.fetch r f ∈ (w_models o fs cwd env).tr) := by
  unfold ui
  rw [launchStep_fetch]
  unfold w_extras
  rw [extrasStep_fetch]

theorem gitMgr_config_nil (o : Oracle) (fs : FS) (cwd : FsPath)
    (env : List (String × String)) :
    gitEvts (w_config o fs cwd env).tr manager_dir = [] := by
  unfold w_config
  rw [configStep_tr]
  unfold w_migrate
  rw [migrateStep_tr]
  unfold w_backend
  rw [backendUpdateStep_gitMgr]
  unfold w_boot
  rw [bootstrapStep_gitMgr]
  rfl

theorem gitMgr_ui_eq_manager (o : Oracle) (fs : FS) (cwd : FsPath)
    (env : List (String × String)) :
    gitEvts (ui o fs cwd env).tr manager_dir =
      gitEvts (w_manager o fs cwd env).tr manager_dir := by
  unfold ui
  rw [launchStep_gitEvts]
  unfold w_extras
  rw [extrasStep_gitEvts]
  unfold w_models modelsStep
  rw [runTasks_gitEvts]
  unfold w_dirs
  rw [dirsStep_tr]
  unfold w_mgrReq
  rw [managerReqStep_gitMgr]
  unfold w_feReq
  rw [frontendReqStep_gitMgr]
  unfold w_cli
  rw [comfyCliStep_gitMgr]
  unfold w_pip
  rw [pipUpgradeStep_gitMgr]

theorem pipUpgradeStep_tr_mono (o : Oracle) (w : W) {e : Ev} (h : e ∈ w.tr) :
    e ∈ (pipUpgradeStep o w).tr := by
  unfold pipUpgradeStep
  split
  · exact h
  · exact List.mem_append_left _ h

theorem comfyCliStep_tr_mono (o : Oracle) (w : W) {e : Ev} (h : e ∈ w.tr) :
    e ∈ (comfyCliStep o w).tr := by
  unfold comfyCliStep
  split
  · exact h
  · exact List.mem_append_left _ h

theorem frontendReqStep_tr_mono (o : Oracle) (w : W) {e : Ev} (h : e ∈ w.tr) :
    e ∈ (frontendReqStep o w).tr := by
  unfold frontendReqStep
  repeat' split
  all_goals first | exact h | exact List.mem_append_left _ h

theorem managerReqStep_tr_mono (o : Oracle) (w : W) {e : Ev} (h : e ∈ w.tr) :
    e ∈ (managerReqStep o w).tr := by
  unfold managerReqStep
  repeat' split
  all_goals first | exact h | exact List.mem_append_left _ h

theorem extrasStep_tr_mono (o : Oracle) (w : W) {e : Ev} (h : e ∈ w.tr) :
    e ∈ (extrasStep o w).tr := by
  unfold extrasStep
  split
  · exact h
  · exact List.mem_append_left _ h

theorem launchStep_tr_mono (o : Oracle) (w : W) {e : Ev} (h : e ∈ w.tr) :
    e ∈ (launchStep o w).tr := by
  unfold launchStep
  repeat' split
  all_goals first | exact h | exact List.mem_append_left _ h

theorem mem_tr_manager_to_ui (o : Oracle) (fs : FS) (cwd : FsPath)
    (env : List (String × String)) {e : Ev} (h : e ∈ (w_manager o fs cwd env).tr) :
    e ∈ (ui o fs cwd env).tr := by
  unfold ui w_extras w_models modelsStep w_dirs w_mgrReq w_feReq w_cli w_pip
  apply launchStep_tr_mono
  apply extrasStep_tr_mono
  apply runTasks_tr_mono
  rw [dirsStep_tr]
  apply managerReqStep_tr_mono
  apply frontendReqStep_tr_mono
  apply comfyCliStep_tr_mono
  apply pipUpgradeStep_tr_mono
  exact h

theorem bootstrapStep_err_fwd (o : Oracle) (w : W) (h : w.err = none)
    (hb : w.fs.pathExists MAIN_PY = true ∨ w.fs.pathExists DEFAULT_COMFY_DIR = false ∨
      o.subOk w.cwd cp_cmd = true) :
    (bootstrapStep o w).err = none := by
  unfold bootstrapStep
  repeat' split
  all_goals (try dsimp only)
  all_goals first | exact h | simp_all

theorem launchStep_popenOk (o : Oracle) (w : W) (h : (launchStep o w).err = none) :
    o.popenOk = true := by
  have hw := launchStep_err_peel o w h
  by_contra hp
  unfold launchStep at h
  rw [if_neg (by simp [hw])] at h
  rw [show o.popenOk = false from by revert hp; cases o.popenOk <;> simp] at h
  simp at h

/-- The configuration file after any completed run: the rewrite of lines
148-154 is unconditional and no later step touches `config.ini`. -/
theorem read_config_after_run (o : Oracle) (fs : FS) (cwd : FsPath)
    (env : List (String × String)) (h : (ui o fs cwd env).err = none) :
    (ui o fs cwd env).fs.read manager_config_path = some config_content := by
  have h2 : (w_migrate o fs cwd env).err = none := ui_err_migrate o fs cwd env h
  rw [ui_fs_eq_models]
  unfold w_models modelsStep
  rw [runTasks_read_pres o model_tasks _
    (by rw [dirs_read_eq_config]
        unfold w_config
        exact configStep_read_self o _ h2)
    (by decide)]

theorem dirs_err_eq_config (o : Oracle) (fs : FS) (cwd : FsPath)
    (env : List (String × String)) :
    (w_dirs o fs cwd env).err = (w_config o fs cwd env).err := by
  unfold w_dirs w_mgrReq w_feReq w_cli w_pip w_manager
  rw [dirsStep_err, managerReqStep_err, frontendReqStep_err, comfyCliStep_err,
    pipUpgradeStep_err, managerStep_err]

theorem tasks_distinct : ∀ u ∈ model_tasks, ∀ v ∈ model_tasks,
    scratchPath v ≠ taskTarget u ∧
    (taskTarget v = taskTarget u ↔ (v.repo_id = u.repo_id ∧ v.filename = u.filename)) := by
  decide

theorem tasks_vs_config : ∀ u ∈ model_tasks,
    taskTarget u ≠ manager_config_path ∧
    under manager_config_dir (taskTarget u) = false ∧
    leadsTo legacy_dir (taskTarget u) = false ∧
    leadsTo backup_dir (taskTarget u) = false := by
  decide

theorem tasks_scratch_head : ∀ v ∈ model_tasks, (scratchPath v).get? 0 = some "tmp" := by
  decide

theorem tasks_vs_legacy : ∀ u ∈ model_tasks,
    scratchPath u ≠ legacy_dir ∧ (MODELS_DIR ++ u.subdir) ≠ legacy_dir ∧
    taskTarget u ≠ legacy_dir := by
  decide

/-! ### The claims -/

/-- C1: for every prior content of the managed configuration file (the
initial filesystem is arbitrary, including the file being absent or
holding arbitrary text), after one run of the reconciler that does not
die of an uncaught exception, the file at
`ComfyUI/user/__manager/config.ini` exists and its content is exactly the
fixed directive set: a single `[default]` section with
`network_mode = private`, `security_level = weak`, `log_to_file = false`,
and nothing else. -/
theorem claim_C1_config_exact (o : Oracle) (fs : FS) (cwd : FsPath)
    (env : List (String × String)) (h : (ui o fs cwd env).err = none) :
    (ui o fs cwd env).fs.read manager_config_path = some config_content :=
  read_config_after_run o fs cwd env h

theorem claim_C1_config_exact_witness :
    (ui oAll fs0 [] []).err = none ∧
    (ui oAll fs0 [] []).fs.read manager_config_path = some config_content :=
  ⟨by decide, claim_C1_config_exact oAll fs0 [] [] (by decide)⟩

/-- C9: running the reconciliation twice in succession on the same volume
(the second run starts from the filesystem the first one left) produces
identical configuration-file content after each run: both reads return
exactly the fixed directive set, so the rewrite is idempotent. -/
theorem claim_C9_rewrite_idempotent (o o2 : Oracle) (fs : FS) (cwd cwd2 : FsPath)
    (env env2 : List (String × String))
    (h1 : (ui o fs cwd env).err = none)
    (h2 : (ui o2 (ui o fs cwd env).fs cwd2 env2).err = none) :
    (ui o2 (ui o fs cwd env).fs cwd2 env2).fs.read manager_config_path =
      (ui o fs cwd env).fs.read manager_config_path ∧
    (ui o fs cwd env).fs.read manager_config_path = some config_content :=
  ⟨by rw [read_config_after_run o fs cwd env h1,
      read_config_after_run o2 _ cwd2 env2 h2],
   read_config_after_run o fs cwd env h1⟩

theorem claim_C9_rewrite_idempotent_witness :
    ((ui oAll fs0 [] []).err = none ∧
      (ui oAll (ui oAll fs0 [] []).fs [] []).err = none) ∧
    (ui oAll (ui oAll fs0 [] []).fs [] []).fs.read manager_config_path =
      (ui oAll fs0 [] []).fs.read manager_config_path :=
  ⟨⟨by decide, by decide⟩,
   (claim_C9_rewrite_idempotent oAll oAll fs0 [] [] [] [] (by decide) (by decide)).1⟩

/-- C3: for every volume state in which the entry-point marker
`ComfyUI/main.py` is absent, one run of the reconciler leaves the marker
present on the volume.  The hypotheses pin down the fixed container
image this deployment builds (the pre-baked installation exists at
`/root/comfy/ComfyUI` and contains `main.py`) and a succeeding bootstrap
copy — the image is built by `comfy install` at lines 36-45, so both hold
on every container of this app. -/
theorem claim_C3_bootstrap_marker (o : Oracle) (fs : FS) (cwd : FsPath)
    (env : List (String × String)) (c : String)
    (h1 : fs.pathExists MAIN_PY = false)
    (h2 : fs.pathExists DEFAULT_COMFY_DIR = true)
    (h3 : fs.read (DEFAULT_COMFY_DIR ++ ["main.py"]) = some c)
    (h4 : o.subOk cwd cp_cmd = true) :
    (ui o fs cwd env).fs.isFile MAIN_PY = true := by
  have hb : (w_boot o fs cwd env).fs.read (DATA_BASE ++ ["main.py"]) = some c := by
    unfold w_boot
    exact bootstrapStep_read_create o _ (by simp) h1 h2 h4 rfl h3
  have hreads : (ui o fs cwd env).fs.read MAIN_PY = some c := by
    rw [ui_fs_eq_models]
    unfold w_models modelsStep
    rw [runTasks_read_pres o model_tasks _ ?base (by decide)]
    case base =>
      rw [dirs_read_eq_config]
      unfold w_config
      rw [configStep_read_frame _ _ (by decide)]
      unfold w_migrate
      rw [migrateStep_read_frame _ _ (by decide) (by decide)]
      rw [backend_fs_eq_boot]
      exact hb
  unfold FS.isFile
  rw [hreads]
  rfl

theorem claim_C3_bootstrap_marker_witness :
    (fsFresh.pathExists MAIN_PY = false ∧
      fsFresh.pathExists DEFAULT_COMFY_DIR = true ∧
      fsFresh.read (DEFAULT_COMFY_DIR ++ ["main.py"]) = some "entry" ∧
      oAll.subOk [] cp_cmd = true) ∧
    (ui oAll fsFresh [] []).fs.isFile MAIN_PY = true :=
  ⟨⟨by decide, by decide, by decide, by decide⟩,
   claim_C3_bootstrap_marker oAll fsFresh [] [] "entry"
     (by decide) (by decide) (by decide) (by decide)⟩

/-- C2: for every declared model task whose expected destination file
`MODELS_DIR/<subdir>/<filename>` already exists before the run, the
reconciler performs no network fetch for that task (no
`hf_hub_download` call for its coordinates appears in the trace) and the
file's content is unchanged after the run.  The hypothesis `himg`
pins down the fixed image: the pre-baked installation carries none of
the six declared weight files (they are only ever downloaded at runtime,
to the volume), so the bootstrap `cp -r` cannot overwrite a weight. -/
theorem claim_C2_satisfied_skip (o : Oracle) (fs : FS) (cwd : FsPath)
    (env : List (String × String)) (t : ModelTask) (c : String)
    (ht : t ∈ model_tasks)
    (hc : fs.read (taskTarget t) = some c)
    (himg : fs.read (imgModelPath t) = none) :
    Ev.fetch t.repo_id t.filename ∉ (ui o fs cwd env).tr ∧
    (ui o fs cwd env).fs.read (taskTarget t) = some c := by
  have htt : taskTarget t = DATA_BASE ++ (["models"] ++ t.subdir ++ [t.filename]) := by
    simp [taskTarget, MODELS_DIR, List.append_assoc]
  have him : imgModelPath t = DEFAULT_COMFY_DIR ++ (["models"] ++ t.subdir ++ [t.filename]) := by
    simp [imgModelPath, List.append_assoc]
  have h1 : (w_boot o fs cwd env).fs.read (taskTarget t) = some c := by
    unfold w_boot
    rw [htt, bootstrapStep_read_frame o _ (by simp) (by rw [← him]; exact himg), ← htt]
    exact hc
  have h3 : (w_dirs o fs cwd env).fs.read (taskTarget t) = some c := by
    rw [dirs_read_eq_config]
    unfold w_config
    rw [configStep_read_frame _ _ (tasks_vs_config t ht).1]
    unfold w_migrate
    rw [migrateStep_read_frame _ _ (tasks_vs_config t ht).2.1 (tasks_vs_config t ht).2.2.1]
    rw [backend_fs_eq_boot]
    exact h1
  constructor
  · intro hmem
    rw [ui_fetch_iff_models] at hmem
    unfold w_models modelsStep at hmem
    rw [runTasks_skip_fetch o model_tasks _ (pathExists_of_read _ _ _ h3)
      (fun v hv => (tasks_distinct t ht v hv).2)
      (fun v hv => (tasks_distinct t ht v hv).1)] at hmem
    exact no_fetch_pre_models o fs cwd env _ _ hmem
  · rw [ui_fs_eq_models]
    unfold w_models modelsStep
    exact runTasks_read_pres o model_tasks _ h3 (fun v hv => (tasks_distinct t ht v hv).1)

theorem claim_C2_satisfied_skip_witness :
    ((⟨["unet", "FLUX"], "flux1-dev-Q8_0.gguf", "city96/FLUX.1-dev-gguf", none⟩ : ModelTask)
        ∈ model_tasks ∧
      fsMgr.read (taskTarget ⟨["unet", "FLUX"], "flux1-dev-Q8_0.gguf",
        "city96/FLUX.1-dev-gguf", none⟩) = some "weights" ∧
      fsMgr.read (imgModelPath ⟨["unet", "FLUX"], "flux1-dev-Q8_0.gguf",
        "city96/FLUX.1-dev-gguf", none⟩) = none) ∧
    (Ev.fetch "city96/FLUX.1-dev-gguf" "flux1-dev-Q8_0.gguf" ∉ (ui oAll fsMgr [] []).tr ∧
      (ui oAll fsMgr [] []).fs.read (taskTarget ⟨["unet", "FLUX"], "flux1-dev-Q8_0.gguf",
        "city96/FLUX.1-dev-gguf", none⟩) = some "weights") :=
  ⟨⟨by decide, by decide, by decide⟩,
   claim_C2_satisfied_skip oAll fsMgr [] []
     ⟨["unet", "FLUX"], "flux1-dev-Q8_0.gguf", "city96/FLUX.1-dev-gguf", none⟩ "weights"
     (by decide) (by decide) (by decide)⟩

/-- C6: in every completed run — under EVERY oracle, in particular every
pattern of download failures, so also when the download of the task at
any position i raises — every declared task is still reached: each task
either has its fetch attempted (its fetch event is in the trace) or was
already satisfied at its check (its destination exists at the end).  A
single failing asset download therefore never prevents the declared
tasks after it from being attempted. -/
theorem claim_C6_failures_isolated (o : Oracle) (fs : FS) (cwd : FsPath)
    (env : List (String × String)) (h : (ui o fs cwd env).err = none) :
    ∀ t ∈ model_tasks, Ev.fetch t.repo_id t.filename ∈ (ui o fs cwd env).tr ∨
      (ui o fs cwd env).fs.pathExists (taskTarget t) = true := by
  intro t ht
  have herrd : (w_dirs o fs cwd env).err = none := by
    rw [dirs_err_eq_config]
    exact ui_err_config o fs cwd env h
  have hrt := runTasks_attempts o model_tasks (w_dirs o fs cwd env) herrd
    (fun a ha b hb => (tasks_distinct b hb a ha).1) t ht
  rcases hrt with h1 | h1
  · left
    rw [ui_fetch_iff_models]
    unfold w_models modelsStep
    exact h1
  · right
    rw [ui_fs_eq_models]
    unfold w_models modelsStep
    exact h1

theorem claim_C6_failures_isolated_witness :
    (ui oNoDl fs0 [] []).err = none ∧
    (Ev.fetch "city96/FLUX.1-dev-gguf" "flux1-dev-Q8_0.gguf" ∈ (ui oNoDl fs0 [] []).tr ∨
      (ui oNoDl fs0 [] []).fs.pathExists
        (taskTarget ⟨["unet", "FLUX"], "flux1-dev-Q8_0.gguf",
          "city96/FLUX.1-dev-gguf", none⟩) = true) :=
  ⟨by decide,
   claim_C6_failures_isolated oNoDl fs0 [] [] (by decide)
     ⟨["unet", "FLUX"], "flux1-dev-Q8_0.gguf", "city96/FLUX.1-dev-gguf", none⟩ (by decide)⟩

/-- C10: for every model task, a completed run whose oracle lets that
task's hub download succeed leaves a file at exactly the path
`MODELS_DIR/<subdir>/<filename>` that the skip check tests (the task is
satisfied afterwards whether it was skipped or fetched-and-moved into
place); consequently a subsequent run — under any oracle — performs no
fetch for that task and leaves it satisfied, so the task stays skipped on
every later run. -/
theorem claim_C10_download_roundtrip (o o2 : Oracle) (fs : FS) (cwd cwd2 : FsPath)
    (env env2 : List (String × String)) (t : ModelTask)
    (ht : t ∈ model_tasks)
    (h1 : (ui o fs cwd env).err = none)
    (hdl : o.dlOk t.repo_id t.filename = true) :
    (ui o fs cwd env).fs.pathExists (taskTarget t) = true ∧
    Ev.fetch t.repo_id t.filename ∉ (ui o2 (ui o fs cwd env).fs cwd2 env2).tr ∧
    (ui o2 (ui o fs cwd env).fs cwd2 env2).fs.pathExists (taskTarget t) = true := by
  have herrd : (w_dirs o fs cwd env).err = none := by
    rw [dirs_err_eq_config]
    exact ui_err_config o fs cwd env h1
  have hA : (ui o fs cwd env).fs.pathExists (taskTarget t) = true := by
    rw [ui_fs_eq_models]
    unfold w_models modelsStep
    exact runTasks_dl_sat o model_tasks _ herrd
      (fun a ha b hb => (tasks_distinct b hb a ha).1) t ht hdl
  have hdirs2 : (w_dirs o2 (ui o fs cwd env).fs cwd2 env2).fs.pathExists
      (taskTarget t) = true := by
    unfold w_dirs
    apply dirsStep_pathExists_pres
    rw [mgrReq_fs_eq_config]
    unfold w_config
    apply configStep_pathExists_pres
    unfold w_migrate
    apply migrateStep_pathExists_pres o2 _ (tasks_vs_config t ht).2.2.1
      (tasks_vs_config t ht).2.2.2
    rw [backend_fs_eq_boot]
    unfold w_boot
    exact bootstrapStep_pathExists_mono o2 _ hA
  refine ⟨hA, ?_, ?_⟩
  · intro hmem
    rw [ui_fetch_iff_models] at hmem
    unfold w_models modelsStep at hmem
    rw [runTasks_skip_fetch o2 model_tasks _ hdirs2
      (fun v hv => (tasks_distinct t ht v hv).2)
      (fun v hv => (tasks_distinct t ht v hv).1)] at hmem
    exact no_fetch_pre_models o2 _ cwd2 env2 _ _ hmem
  · rw [ui_fs_eq_models]
    unfold w_models modelsStep
    exact runTasks_pathExists_pres o2 model_tasks _
      (fun v hv => (tasks_distinct t ht v hv).1) hdirs2

theorem claim_C10_download_roundtrip_witness :
    ((⟨["unet", "FLUX"], "flux1-dev-Q8_0.gguf", "city96/FLUX.1-dev-gguf", none⟩ : ModelTask)
        ∈ model_tasks ∧
      (ui oAll ⟨[], []⟩ [] []).err = none ∧
      oAll.dlOk "city96/FLUX.1-dev-gguf" "flux1-dev-Q8_0.gguf" = true) ∧
    ((ui oAll ⟨[], []⟩ [] []).fs.pathExists (taskTarget ⟨["unet", "FLUX"],
        "flux1-dev-Q8_0.gguf", "city96/FLUX.1-dev-gguf", none⟩) = true ∧
      Ev.fetch "city96/FLUX.1-dev-gguf" "flux1-dev-Q8_0.gguf" ∉
        (ui oAll (ui oAll ⟨[], []⟩ [] []).fs [] []).tr) :=
  ⟨⟨by decide, by decide, by decide⟩,
   ⟨(claim_C10_download_roundtrip oAll oAll ⟨[], []⟩ [] [] [] []
       ⟨["unet", "FLUX"], "flux1-dev-Q8_0.gguf", "city96/FLUX.1-dev-gguf", none⟩
       (by decide) (by decide) (by decide)).1,
    (claim_C10_download_roundtrip oAll oAll ⟨[], []⟩ [] [] [] []
       ⟨["unet", "FLUX"], "flux1-dev-Q8_0.gguf", "city96/FLUX.1-dev-gguf", none⟩
       (by decide) (by decide) (by decide)).2.1⟩⟩

/-- C4 counterexample: the claim "every file the legacy directory
contained has been copied into the new configuration directory" is false
in the final state.  Concretely: with a legacy directory containing
`.legacy-manager-backup/notify.txt`, the run completes, yet the migrated
copy of that file is gone — the migration copies it and then line 145
deletes the whole `.legacy-manager-backup` subtree under the new
location. -/
theorem claim_C4_counterexample :
    fsLeg.read (legacy_dir ++ [".legacy-manager-backup", "notify.txt"]) = some "nag" ∧
    fsLeg.pathExists legacy_dir = true ∧
    (ui oAll fsLeg [] []).err = none ∧
    (ui oAll fsLeg [] []).fs.read
      (manager_config_dir ++ [".legacy-manager-backup", "notify.txt"]) = none := by
  refine ⟨by decide, by decide, by decide, by decide⟩

/-- C4 (amended): for every state in which the legacy configuration
directory exists before a completed run: afterwards the legacy directory
no longer exists; the config file equals the fixed directive set exactly
(not a merge); and every file the legacy directory contained is present
at its relocated path under `ComfyUI/user/__manager` — EXCEPT the config
file itself (overwritten, as the claim already said) and files under the
legacy `.legacy-manager-backup` subdirectory, which line 145 deletes
after the copy.  The per-file image hypothesis pins the fixed container
image, which carries no legacy Manager state to merge over the copy. -/
theorem claim_C4_migration_amended (o : Oracle) (fs : FS) (cwd : FsPath)
    (env : List (String × String))
    (hleg : fs.pathExists legacy_dir = true)
    (h : (ui o fs cwd env).err = none) :
    (ui o fs cwd env).fs.pathExists legacy_dir = false ∧
    (ui o fs cwd env).fs.read manager_config_path = some config_content ∧
    (∀ r c, fs.read (legacy_dir ++ r) = some c → r ≠ [] →
      leadsTo [".legacy-manager-backup"] r = false →
      r ≠ ["config.ini"] →
      fs.read (DEFAULT_COMFY_DIR ++ (["user", "default", "ComfyUI-Manager"] ++ r)) = none →
      (ui o fs cwd env).fs.read (manager_config_dir ++ r) = some c) := by
  have h2 : (w_migrate o fs cwd env).err = none := ui_err_migrate o fs cwd env h
  have h3 : (w_backend o fs cwd env).err = none := ui_err_backend o fs cwd env h
  have hlegb : (w_backend o fs cwd env).fs.pathExists legacy_dir = true := by
    rw [backend_fs_eq_boot]
    unfold w_boot
    exact bootstrapStep_pathExists_mono o _ hleg
  have hmigok : o.migCopyOk = true := by
    unfold w_migrate at h2
    exact migrateStep_migCopyOk o _ h2 hlegb
  refine ⟨?_, read_config_after_run o fs cwd env h, ?_⟩
  · have g1 : (w_migrate o fs cwd env).fs.pathExists legacy_dir = false := by
      unfold w_migrate at h2 ⊢
      exact migrateStep_legacy_gone o _ hlegb h2
    have g2 : (w_config o fs cwd env).fs.pathExists legacy_dir = false := by
      unfold w_config
      exact configStep_pathExists_false o _ (by decide) (by decide) g1
    have g3 : (w_dirs o fs cwd env).fs.pathExists legacy_dir = false := by
      unfold w_dirs
      apply dirsStep_pathExists_false o _ (by decide) (by decide) (by decide)
      rw [mgrReq_fs_eq_config]
      exact g2
    rw [ui_fs_eq_models]
    unfold w_models modelsStep
    exact runTasks_pathExists_false o model_tasks _
      (fun u hu => ⟨(tasks_vs_legacy u hu).1, (tasks_vs_legacy u hu).2.1,
        (tasks_vs_legacy u hu).2.2⟩) g3
  · intro r c hrc hrne hrb hrcfg himg
    have hpath : legacy_dir ++ r
        = DATA_BASE ++ (["user", "default", "ComfyUI-Manager"] ++ r) := by
      simp [legacy_dir, List.append_assoc]
    have v1 : (w_backend o fs cwd env).fs.read (legacy_dir ++ r) = some c := by
      rw [backend_fs_eq_boot]
      unfold w_boot
      rw [hpath, bootstrapStep_read_frame o _ (by simp) himg, ← hpath]
      exact hrc
    have v2 : (w_migrate o fs cwd env).fs.read (manager_config_dir ++ r) = some c := by
      unfold w_migrate
      exact migrateStep_read_migrated o _ hlegb hmigok h3 hrne hrb v1
    have v3 : (w_config o fs cwd env).fs.read (manager_config_dir ++ r) = some c := by
      unfold w_config
      rw [configStep_read_frame _ _ ?ne1]
      · exact v2
      case ne1 =>
        intro heq
        exact hrcfg (List.append_cancel_left
          (show manager_config_dir ++ r = manager_config_dir ++ ["config.ini"] from heq))
    have v4 : (w_dirs o fs cwd env).fs.read (manager_config_dir ++ r) = some c := by
      rw [dirs_read_eq_config]
      exact v3
    rw [ui_fs_eq_models]
    unfold w_models modelsStep
    exact runTasks_read_pres o model_tasks _ v4
      (fun v hv => ne_of_idx (tasks_scratch_head v hv)
        (show (manager_config_dir ++ r).get? 0 = some "data" from rfl) (by decide))

theorem claim_C4_migration_amended_witness :
    (fsLeg.pathExists legacy_dir = true ∧ (ui oAll fsLeg [] []).err = none) ∧
    ((ui oAll fsLeg [] []).fs.pathExists legacy_dir = false ∧
      (ui oAll fsLeg [] []).fs.read (manager_config_dir ++ ["settings.json"])
        = some "old-settings") :=
  ⟨⟨by decide, by decide⟩,
   ⟨(claim_C4_migration_amended oAll fsLeg [] [] (by decide) (by decide)).1,
    (claim_C4_migration_amended oAll fsLeg [] [] (by decide) (by decide)).2.2
      ["settings.json"] "old-settings" (by decide) (by decide) (by decide) (by decide)
      (by decide)⟩⟩

/-- C5 counterexample: config-migration failures are NOT caught — the
migration block (lines 134-146) sits outside every `try`.  Concretely:
with a legacy directory present, every subprocess succeeding and the
launch able to run, a failing migration `shutil.copytree` kills the run
(the error propagates) and the server is never launched —
contradicting both "exactly two failure classes are unrecovered" and
"config migration edge cases … caught, logged, and execution
continues". -/
theorem claim_C5_counterexample :
    (ui oMigFail fsLeg [] []).err ≠ none ∧
    (ui oMigFail fsLeg [] []).tr.any Ev.isPopen = false := by
  refine ⟨by decide, by decide⟩

/-- C5 (amended): exactly three failure classes are unrecovered —
a failing first-run bootstrap copy, a failing migration
`shutil.copytree`, and an error during the final launch.  Every other
modelled failure — any git/pip/install subprocess failing in any
pattern, any subset of asset downloads failing — is caught and the run
still completes and launches the server: with the three named classes
assumed healthy the run ends with `err = none` and the launch event in
the trace, for EVERY oracle. -/
theorem claim_C5_error_classes_amended (o : Oracle) (fs : FS) (cwd : FsPath)
    (env : List (String × String))
    (hmig : o.migCopyOk = true) (hpo : o.popenOk = true)
    (hboot : fs.pathExists MAIN_PY = true ∨ fs.pathExists DEFAULT_COMFY_DIR = false ∨
      o.subOk cwd cp_cmd = true) :
    (ui o fs cwd env).err = none ∧
    Ev.popen DATA_BASE launch_cmd (envSet "COMFY_DIR" DATA_BASE_STR env)
      ∈ (ui o fs cwd env).tr := by
  have e1 : (w_boot o fs cwd env).err = none := by
    unfold w_boot
    exact bootstrapStep_err_fwd o _ rfl hboot
  have e2 : (w_backend o fs cwd env).err = none := by
    rw [backend_err_eq_boot]
    exact e1
  have e3 : (w_migrate o fs cwd env).err = none := by
    unfold w_migrate
    exact migrateStep_err_fwd o _ e2 hmig
  have e5 : (w_extras o fs cwd env).err = none := by
    rw [extras_err_eq_config, config_err_eq_migrate]
    exact e3
  constructor
  · unfold ui
    exact launchStep_err_fwd o _ e5 hpo
  · unfold ui
    rw [launchStep_tr o _ e5 hpo, w_extras_env_eq]
    simp

theorem claim_C5_error_classes_amended_witness :
    (oAll.migCopyOk = true ∧ oAll.popenOk = true ∧ fs0.pathExists MAIN_PY = true) ∧
    ((ui oAll fs0 [] []).err = none ∧
      Ev.popen DATA_BASE launch_cmd (envSet "COMFY_DIR" DATA_BASE_STR [])
        ∈ (ui oAll fs0 [] []).tr) :=
  ⟨⟨rfl, rfl, by decide⟩,
   claim_C5_error_classes_amended oAll fs0 [] [] rfl rfl (Or.inl (by decide))⟩

/-- C7 counterexample: the source-update pattern is NOT repeated
identically for the plugin.  In a run where both updates execute and
every command succeeds, the git commands issued in the plugin directory
are `[git config pull.ff only, git pull --ff-only]` while those issued
in the installation directory are `[git symbolic-ref HEAD,
git config pull.ff only, git pull --ff-only]`: the detached-HEAD
detection (and its checkout) is never performed for the plugin. -/
theorem claim_C7_counterexample :
    gitEvts (ui oAll fsMgr [] []).tr manager_dir ≠
      gitEvts (ui oAll fsMgr [] []).tr DATA_BASE := by
  decide

/-- C7 (amended): only the fast-forward-pull half of the pattern is
repeated for the one named plugin directory: when `ComfyUI-Manager` is
present at the check, the git commands run in it are exactly
`git config pull.ff only` followed — when the config call succeeds — by
`git pull --ff-only`, with no detached-HEAD detection or checkout; when
it is absent, a fresh managed install (`comfy node install
ComfyUI-Manager`) is attempted instead. -/
theorem claim_C7_plugin_update_amended (o : Oracle) (fs : FS) (cwd : FsPath)
    (env : List (String × String))
    (h : (w_config o fs cwd env).err = none) :
    ((w_config o fs cwd env).fs.pathExists manager_dir = true →
      gitEvts (ui o fs cwd env).tr manager_dir =
        "git config pull.ff only" ::
          (if o.subOk manager_dir "git config pull.ff only" = true
            then ["git pull --ff-only"] else [])) ∧
    ((w_config o fs cwd env).fs.pathExists manager_dir = false →
      Ev.sub DATA_BASE "comfy node install ComfyUI-Manager" ∈ (ui o fs cwd env).tr) := by
  constructor
  · intro hm
    rw [gitMgr_ui_eq_manager]
    unfold w_manager
    rw [managerStep_git_present o _ h hm, gitMgr_config_nil]
    rfl
  · intro hm
    have hcwd := w_config_cwd o fs cwd env h
    apply mem_tr_manager_to_ui
    unfold w_manager
    rw [managerStep_install o _ h hm, hcwd]
    simp

theorem claim_C7_plugin_update_amended_witness :
    ((w_config oAll fsMgr [] []).err = none ∧
      (w_config oAll fsMgr [] []).fs.pathExists manager_dir = true) ∧
    gitEvts (ui oAll fsMgr [] []).tr manager_dir =
      ["git config pull.ff only", "git pull --ff-only"] :=
  ⟨⟨by decide, by decide⟩,
   ((claim_C7_plugin_update_amended oAll fsMgr [] [] (by decide)).1
     (by decide)).trans (by decide)⟩

/-- C8: at handoff of a completed run, the reconciler first exports
`COMFY_DIR = /data/comfy/ComfyUI` into the process environment and then
starts the server as a non-blocking child: the trace ends with the
`setenv` event followed by the `Popen` of
`comfy launch -- --listen 0.0.0.0 --port 8000 --front-end-version
Comfy-Org/ComfyUI_frontend@latest --enable-manager`, run in the
installation directory with the updated environment — so the exported
variable is visible to the child.  The embedding of `Popen` records the
spawn and returns immediately; `ui` never waits on the child. -/
theorem claim_C8_handoff (o : Oracle) (fs : FS) (cwd : FsPath)
    (env : List (String × String)) (h : (ui o fs cwd env).err = none) :
    (ui o fs cwd env).tr = (w_extras o fs cwd env).tr ++
      [Ev.setenv "COMFY_DIR" DATA_BASE_STR,
       Ev.popen DATA_BASE launch_cmd (envSet "COMFY_DIR" DATA_BASE_STR env)] ∧
    ("COMFY_DIR", DATA_BASE_STR) ∈ envSet "COMFY_DIR" DATA_BASE_STR env := by
  have h1 := ui_err_extras o fs cwd env h
  have hp := launchStep_popenOk o _ h
  constructor
  · unfold ui
    rw [launchStep_tr o _ h1 hp, w_extras_env_eq]
  · simp [envSet]

theorem claim_C8_handoff_witness :
    (ui oAll fs0 [] []).err = none ∧
    ((ui oAll fs0 [] []).tr = (w_extras oAll fs0 [] []).tr ++
        [Ev.setenv "COMFY_DIR" DATA_BASE_STR,
         Ev.popen DATA_BASE launch_cmd (envSet "COMFY_DIR" DATA_BASE_STR [])] ∧
      ("COMFY_DIR", DATA_BASE_STR) ∈ envSet "COMFY_DIR" DATA_BASE_STR []) :=
  ⟨by decide, claim_C8_handoff oAll fs0 [] [] (by decide)⟩

end ComfyRec
